import Mathlib

/-!
# Hatchet: ticker, events controller and step-run repository

A shallow embedding of

* `internal/services/ticker/ticker.go` (`TickerImpl.Start`, its cleanup closure,
  `handleTask`, `runGetGroupKeyRunRequeue`, `tickerRemoved`),
* `internal/services/controllers/events/controller.go` (`EventsControllerImpl.Start`,
  `handleTask`, `processEvent`),
* `internal/repository/step_run.go` (`UpdateStepRunOpts`, `ErrStepRunIsNotPending`,
  the `QueueStepRun` contract).

The collaborators of the code (task queue, repository, scheduler, decoder, the
individual ticker handlers) are interfaces whose implementations live elsewhere.
They are parameters of the embedding (`Env`).  Every call the code makes on a
collaborator is appended, together with its outcome, to a `History`; the answer
of a collaborator may depend on the whole history so far.  Goroutines are
modelled by explicit schedules: every theorem about concurrent code is proved
for all schedules.
-/

namespace Hatchet

/-! ## Go errors -/

/-- Go `error` values.  `msg` is an error without a cause (`fmt.Errorf` without
`%w`, or an error produced by a collaborator); `wrap text cause` is
`fmt.Errorf(text + ": %w", cause)`. -/
inductive GoError where
  | msg (text : String)
  | wrap (text : String) (cause : GoError)
deriving DecidableEq, Repr

/-- The `Error()` string of a Go error. -/
def GoError.Error : GoError → String
  | .msg text => text
  | .wrap text cause => text ++ ": " ++ cause.Error

/-- The chain walked by `errors.Unwrap`: the error itself, then its causes. -/
def GoError.chain : GoError → List GoError
  | .msg text => [.msg text]
  | .wrap text cause => .wrap text cause :: cause.chain

/-! ## Data carried on the queue and kept in the store -/

/-- A decoded JSON object (`map[string]interface{}`), as produced by
`datautils.ToJSONMap`: a list of key/value pairs. -/
abbrev JSONMap := List (String × String)

/-- The envelope `taskqueue.Task`. -/
structure Task where
  ID : String
  Payload : JSONMap
  Metadata : JSONMap
deriving DecidableEq, Repr

/-- Modelled from the spec: the `taskqueue` package (the queue constants and
`QueueTypeFromTickerID`) is not among the sources.  The spec names the logical
topics `event-processing`, `workflow-processing`, `job-processing` and one
dedicated topic per ticker, named deterministically from the ticker's id. -/
inductive QueueType where
  | EVENT_PROCESSING_QUEUE
  | WORKFLOW_PROCESSING_QUEUE
  | JOB_PROCESSING_QUEUE
  | QueueTypeFromTickerID (tickerId : String)
deriving DecidableEq, Repr

/-- The `db.TickerModel` record returned by `CreateNewTicker`; only its `ID` is read. -/
structure TickerModel where
  ID : String
deriving DecidableEq, Repr

/-- The `db.TenantModel` record returned by `ListTenants`; only its `ID` is read. -/
structure TenantModel where
  ID : String
deriving DecidableEq, Repr

/-- The `db.EventModel` record; `processEvent` reads `TenantID` and `Key`. -/
structure EventModel where
  ID : String
  TenantID : String
  Key : String
deriving DecidableEq, Repr

/-- The workflow definition record returned by `ListWorkflowsForEvent`. -/
structure WorkflowModel where
  ID : String
deriving DecidableEq, Repr

/-- The value `*repository.CreateWorkflowRunOpts`. -/
structure CreateWorkflowRunOpts where
  WorkflowVersionId : String
  TriggeringEventId : String
deriving DecidableEq, Repr

/-- The `db.WorkflowRunModel` record returned by `CreateNewWorkflowRun`. -/
structure WorkflowRunModel where
  ID : String
  TenantID : String
deriving DecidableEq, Repr

/-- The value `tasktypes.EventTaskPayload`. -/
structure EventTaskPayload where
  EventId : String
deriving DecidableEq, Repr

/-- The value `tasktypes.EventTaskMetadata`. -/
structure EventTaskMetadata where
  EventKey : String
  TenantId : String
deriving DecidableEq, Repr

/-- The value `tasktypes.RemoveTickerTaskPayload`. -/
structure RemoveTickerTaskPayload where
  TickerId : String
deriving DecidableEq, Repr

/-- The ten handler methods `handleTask` of the ticker dispatches to. -/
inductive Handler where
  | handleScheduleStepRunTimeout
  | handleCancelStepRunTimeout
  | handleScheduleGetGroupKeyRunTimeout
  | handleCancelGetGroupKeyRunTimeout
  | handleScheduleJobRunTimeout
  | handleCancelJobRunTimeout
  | handleScheduleCron
  | handleCancelCron
  | handleScheduleWorkflow
  | handleCancelWorkflow
deriving DecidableEq, Repr

/-- The two functions `Start` of the ticker hands to the scheduler. -/
inductive PeriodicAction where
  | runGetGroupKeyRunRequeue
  | runUpdateHeartbeat
deriving DecidableEq, Repr

/-- Which of the two fields of a task `DecodeAndValidate` is applied to. -/
inductive TaskField where
  | Payload
  | Metadata
deriving DecidableEq, Repr

/-! ## The history of observable actions -/

/-- One observable action of the code, with its outcome (`none` is a `nil` error). -/
inductive Call where
  /-- Call `repo.Ticker().CreateNewTicker(&CreateTickerOpts{ID: id})`. -/
  | CreateNewTicker (id : String) (ticker : Option TickerModel) (err : Option GoError)
  /-- Call `tq.Subscribe(queue)`. -/
  | Subscribe (queue : QueueType) (err : Option GoError)
  /-- Call `s.NewJob(gocron.DurationJob(seconds), gocron.NewTask(action))`. -/
  | NewJob (seconds : Nat) (action : PeriodicAction) (err : Option GoError)
  /-- Call `s.Start()`. -/
  | SchedulerStart
  /-- Call `cancel()` of a context. -/
  | cancel
  /-- Call `cleanupQueue()`, the function returned by `Subscribe`. -/
  | cleanupQueue (err : Option GoError)
  /-- Call `wg.Wait()` has returned. -/
  | wgWait
  /-- Call `repo.Ticker().Delete(id)`. -/
  | Delete (id : String) (err : Option GoError)
  /-- Call `s.Shutdown()`. -/
  | Shutdown (err : Option GoError)
  /-- Call `tq.AddTask(ctx, queue, task)`. -/
  | AddTask (queue : QueueType) (task : Task) (err : Option GoError)
  /-- Call `repo.Tenant().ListTenants()`. -/
  | ListTenants (tenants : List TenantModel) (err : Option GoError)
  /-- One of the ten handler methods of the ticker. -/
  | handler (which : Handler) (task : Task) (err : Option GoError)
  /-- Call `handleTask(ctx, task)` of a task-handling goroutine has returned `err`. -/
  | handleTask (task : Task) (err : Option GoError)
  /-- A log line at error level: message and logged error. -/
  | logError (text : String) (err : GoError)
  /-- Call `dv.DecodeAndValidate(task.Payload, _)` or `(task.Metadata, _)`. -/
  | DecodeAndValidate (field : TaskField) (data : JSONMap) (err : Option GoError)
  /-- Call `repo.Event().GetEventById(id)`. -/
  | GetEventById (id : String) (event : Option EventModel) (err : Option GoError)
  /-- Call `repo.Workflow().ListWorkflowsForEvent(ctx, tenantId, key)`. -/
  | ListWorkflowsForEvent (tenantId key : String) (workflows : List WorkflowModel)
      (err : Option GoError)
  /-- Call `repository.GetCreateWorkflowRunOptsFromEvent(event, &workflowCp)`. -/
  | GetCreateWorkflowRunOptsFromEvent (event : EventModel) (workflow : WorkflowModel)
      (opts : Option CreateWorkflowRunOpts) (err : Option GoError)
  /-- Call `repo.WorkflowRun().CreateNewWorkflowRun(ctx, tenantId, createOpts)`. -/
  | CreateNewWorkflowRun (tenantId : String) (opts : CreateWorkflowRunOpts)
      (run : Option WorkflowRunModel) (err : Option GoError)
deriving DecidableEq, Repr

/-- Everything that has been observed so far, oldest first. -/
abbrev History := List Call

/-- The collaborators of the embedded code.  The answer of a stateful
collaborator may depend on the history. -/
structure Env where
  /-- Call `repo.Ticker().CreateNewTicker`. -/
  CreateNewTicker : History → String → Except GoError TickerModel
  /-- Call `tq.Subscribe`; only the error is modelled, the channel is the list of delivered tasks. -/
  Subscribe : History → QueueType → Option GoError
  /-- Call `s.NewJob`. -/
  NewJob : History → Nat → PeriodicAction → Option GoError
  /-- The cleanup function returned by `tq.Subscribe`. -/
  cleanupQueue : History → Option GoError
  /-- Call `repo.Ticker().Delete`. -/
  Delete : History → String → Option GoError
  /-- Call `s.Shutdown`. -/
  Shutdown : History → Option GoError
  /-- Call `tq.AddTask`. -/
  AddTask : History → QueueType → Task → Option GoError
  /-- Call `repo.Tenant().ListTenants`. -/
  ListTenants : History → Except GoError (List TenantModel)
  /-- The bodies of the ten handler methods of the ticker. -/
  runHandler : Handler → History → Task → Option GoError
  /-- Call `tasktypes.TenantToGroupKeyActionRequeueTask`. -/
  TenantToGroupKeyActionRequeueTask : TenantModel → Task
  /-- Call `datautils.ToJSONMap` on a `RemoveTickerTaskPayload`. -/
  ToJSONMapRemoveTickerTaskPayload : RemoveTickerTaskPayload → JSONMap
  /-- Call `datautils.ToJSONMap` on the empty `RemoveTickerTaskMetadata`. -/
  ToJSONMapRemoveTickerTaskMetadata : JSONMap
  /-- Call `dv.DecodeAndValidate(task.Payload, &payload)`. -/
  DecodeAndValidatePayload : JSONMap → Except GoError EventTaskPayload
  /-- Call `dv.DecodeAndValidate(task.Metadata, &metadata)`. -/
  DecodeAndValidateMetadata : JSONMap → Except GoError EventTaskMetadata
  /-- Call `repo.Event().GetEventById`. -/
  GetEventById : History → String → Except GoError EventModel
  /-- Call `repo.Workflow().ListWorkflowsForEvent`. -/
  ListWorkflowsForEvent : History → String → String → Except GoError (List WorkflowModel)
  /-- Call `repository.GetCreateWorkflowRunOptsFromEvent`. -/
  GetCreateWorkflowRunOptsFromEvent :
    EventModel → WorkflowModel → Except GoError CreateWorkflowRunOpts
  /-- Call `repo.WorkflowRun().CreateNewWorkflowRun`. -/
  CreateNewWorkflowRun : History → String → CreateWorkflowRunOpts → Except GoError WorkflowRunModel
  /-- Call `tasktypes.WorkflowRunQueuedToTask`. -/
  WorkflowRunQueuedToTask : WorkflowRunModel → Task

/-! ## Ticker: `handleTask` -/

namespace TickerImpl

/-- Calls one handler method and records the call. -/
def invoke (env : Env) (which : Handler) (h : History) (task : Task) :
    Option GoError × History :=
  let err := env.runHandler which h task
  (err, h ++ [Call.handler which task err])

/-- Call `TickerImpl.handleTask`: the `switch task.ID`. -/
def handleTask (env : Env) (h : History) (task : Task) : Option GoError × History :=
  if task.ID = "schedule-step-run-timeout" then
    invoke env .handleScheduleStepRunTimeout h task
  else if task.ID = "cancel-step-run-timeout" then
    invoke env .handleCancelStepRunTimeout h task
  else if task.ID = "schedule-get-group-key-run-timeout" then
    invoke env .handleScheduleGetGroupKeyRunTimeout h task
  else if task.ID = "cancel-get-group-key-run-timeout" then
    invoke env .handleCancelGetGroupKeyRunTimeout h task
  else if task.ID = "schedule-job-run-timeout" then
    invoke env .handleScheduleJobRunTimeout h task
  else if task.ID = "cancel-job-run-timeout" then
    invoke env .handleCancelJobRunTimeout h task
  else if task.ID = "schedule-cron" then
    invoke env .handleScheduleCron h task
  else if task.ID = "cancel-cron" then
    invoke env .handleCancelCron h task
  else if task.ID = "schedule-workflow" then
    invoke env .handleScheduleWorkflow h task
  else if task.ID = "cancel-workflow" then
    invoke env .handleCancelWorkflow h task
  else
    (some (.msg ("unknown task: " ++ task.ID)), h)

/-- The receiver `*TickerImpl`: the collaborators are in `Env`, the private timer
maps are not touched by the embedded functions; `tickerId` is what remains. -/
structure Ticker where
  tickerId : String
deriving DecidableEq, Repr

/-- `TickerImpl.runGetGroupKeyRunRequeue`: one run of the returned function.  Lines
logged at debug level are not recorded. -/
def runGetGroupKeyRunRequeue.loop (env : Env) : List TenantModel → History → History
  | [], h => h
  | tenant :: rest, h =>
    let task := env.TenantToGroupKeyActionRequeueTask tenant
    let err := env.AddTask h .WORKFLOW_PROCESSING_QUEUE task
    let h1 := h ++ [Call.AddTask .WORKFLOW_PROCESSING_QUEUE task err]
    match err with
    | some e => loop env rest (h1 ++ [Call.logError "could not add get group key run requeue task" e])
    | none => loop env rest h1

/-- `TickerImpl.runGetGroupKeyRunRequeue`: list the tenants, give up when that fails,
otherwise add one requeue task per tenant. -/
def runGetGroupKeyRunRequeue (env : Env) (h : History) : History :=
  match env.ListTenants h with
  | .error e => h ++ [Call.ListTenants [] (some e), Call.logError "could not list tenants" e]
  | .ok tenants => runGetGroupKeyRunRequeue.loop env tenants (h ++ [Call.ListTenants tenants none])

/-- `tickerRemoved`: the task announcing that a ticker is gone. -/
def tickerRemoved (env : Env) (tickerId : String) : Task :=
  { ID := "ticker-removed"
    Payload := env.ToJSONMapRemoveTickerTaskPayload { TickerId := tickerId }
    Metadata := env.ToJSONMapRemoveTickerTaskMetadata }

/-- What `Start` returns: `(cleanup, nil)` or `(nil, err)`. -/
inductive StartResult where
  | cleanup
  | error (err : GoError)
deriving DecidableEq, Repr

/-- `TickerImpl.Start` up to the point where the consuming goroutine is started and
the cleanup function is returned. -/
def Start (t : Ticker) (env : Env) (h : History) : StartResult × History :=
  match env.CreateNewTicker h t.tickerId with
  | .error e => (.error e, h ++ [Call.CreateNewTicker t.tickerId none (some e), Call.cancel])
  | .ok ticker =>
    let h1 := h ++ [Call.CreateNewTicker t.tickerId (some ticker) none]
    match env.Subscribe h1 (.QueueTypeFromTickerID ticker.ID) with
    | some e => (.error e, h1 ++ [Call.Subscribe (.QueueTypeFromTickerID ticker.ID) (some e), Call.cancel])
    | none =>
      let h2 := h1 ++ [Call.Subscribe (.QueueTypeFromTickerID ticker.ID) none]
      match env.NewJob h2 5 .runGetGroupKeyRunRequeue with
      | some e =>
        (.error (.wrap "could not schedule get group key run requeue" e),
          h2 ++ [Call.NewJob 5 .runGetGroupKeyRunRequeue (some e), Call.cancel])
      | none =>
        let h3 := h2 ++ [Call.NewJob 5 .runGetGroupKeyRunRequeue none]
        -- the error of the second `NewJob` is assigned to `err` and not read again
        let err := env.NewJob h3 5 .runUpdateHeartbeat
        let h4 := h3 ++ [Call.NewJob 5 .runUpdateHeartbeat err]
        (.cleanup, h4 ++ [Call.SchedulerStart])

/-- The body of one task-handling goroutine of the ticker:
`err := t.handleTask(ctx, task); if err != nil { log }`. -/
def taskUnit (env : Env) (h : History) (task : Task) : History :=
  let r := handleTask env h task
  let h1 := r.2 ++ [Call.handleTask task r.1]
  match r.1 with
  | some e => h1 ++ [Call.logError ("could not handle ticker task " ++ task.ID) e]
  | none => h1

/-- The cleanup function returned by `Start`.  `early` are the task-handling
goroutines that finish before `cleanupQueue` returns, `late` the ones still running
when `wg.Wait()` is reached, each list in the order of finishing. -/
def cleanup (t : Ticker) (env : Env) (early late : List Task) (h : History) :
    Option GoError × History :=
  let h1 := early.foldl (taskUnit env) (h ++ [Call.cancel])
  match env.cleanupQueue h1 with
  | some e => (some (.wrap "could not cleanup queue" e), h1 ++ [Call.cleanupQueue (some e)])
  | none =>
    let h2 := late.foldl (taskUnit env) (h1 ++ [Call.cleanupQueue none]) ++ [Call.wgWait]
    match env.Delete h2 t.tickerId with
    | some e =>
      (some e, h2 ++ [Call.Delete t.tickerId (some e), Call.logError "could not delete ticker" e])
    | none =>
      let h3 := h2 ++ [Call.Delete t.tickerId none]
      match env.AddTask h3 .JOB_PROCESSING_QUEUE (tickerRemoved env t.tickerId) with
      | some e =>
        (some e, h3 ++ [Call.AddTask .JOB_PROCESSING_QUEUE (tickerRemoved env t.tickerId) (some e),
          Call.logError "could not add ticker removed task" e])
      | none =>
        let h4 := h3 ++ [Call.AddTask .JOB_PROCESSING_QUEUE (tickerRemoved env t.tickerId) none]
        match env.Shutdown h4 with
        | some e =>
          (some (.wrap "could not shutdown scheduler" e), h4 ++ [Call.Shutdown (some e)])
        | none => (none, h4 ++ [Call.Shutdown none])

end TickerImpl

/-! ## The consuming goroutine of `Start` -/

/-- The goroutine `for task := range taskChan` of `Start` together with the goroutines
it starts: `taskChan` holds the tasks delivered and not yet received, `inflight` the
tasks whose goroutine was started (`wg.Add(1)`) and has not finished. -/
structure Consumer where
  taskChan : List Task
  inflight : List Task
  trace : History

/-- One scheduling decision: the loop receives the next task and starts its goroutine,
or the goroutine at position `k` of `inflight` runs to its end. -/
inductive Tick where
  | recv
  | finish (k : Nat)
deriving DecidableEq, Repr

/-- One scheduling decision applied to the consumer; `unit` is the body of the
task-handling goroutine. -/
def Consumer.step (unit : History → Task → History) (s : Consumer) : Tick → Consumer
  | .recv =>
    match s.taskChan with
    | [] => s
    | task :: rest => { taskChan := rest, inflight := s.inflight ++ [task], trace := s.trace }
  | .finish k =>
    match s.inflight[k]? with
    | none => s
    | some task =>
      { taskChan := s.taskChan, inflight := s.inflight.eraseIdx k, trace := unit s.trace task }

/-- A schedule applied to the consumer. -/
def Consumer.run (unit : History → Task → History) (sched : List Tick) (s : Consumer) :
    Consumer :=
  sched.foldl (Consumer.step unit) s

/-- The rest of the run: the goroutines in flight finish, the loop receives what is left
on the channel and those goroutines finish as well. -/
def Consumer.drain (unit : History → Task → History) (s : Consumer) : History :=
  (s.inflight ++ s.taskChan).foldl unit s.trace

/-- The consumption loop of `TickerImpl.Start` on the tasks delivered on the subscribed
channel, under the schedule `sched`. -/
def TickerImpl.consume (env : Env) (sched : List Tick) (tasks : List Task) (h : History) :
    History :=
  Consumer.drain (TickerImpl.taskUnit env)
    (Consumer.run (TickerImpl.taskUnit env) sched { taskChan := tasks, inflight := [], trace := h })

/-! ## Events controller -/

namespace EventsControllerImpl

/-- One goroutine started by `g.Go` in `processEvent`, by the point it has reached and
the local variables that are still live there. -/
inductive Branch where
  /-- Started with its copy `workflowCp`. -/
  | start (workflowCp : WorkflowModel)
  /-- After `GetCreateWorkflowRunOptsFromEvent` returned `createOpts`. -/
  | haveOpts (createOpts : CreateWorkflowRunOpts)
  /-- After `CreateNewWorkflowRun` returned `workflowRun`. -/
  | haveRun (workflowRun : WorkflowRunModel)
  /-- The function has returned `err`; the group has not recorded it yet. -/
  | returning (err : Option GoError)
  /-- Finished (`g.done()`). -/
  | done
deriving DecidableEq, Repr

/-- The `errgroup.Group` of `processEvent`: its goroutines, the first error recorded
(`g.err`), and the calls made since the group was created. -/
structure Group where
  branches : List Branch
  err : Option GoError
  calls : List Call
deriving DecidableEq, Repr

/-- The goroutine at position `i` takes its next step.  `h` is the history before the
group was created. -/
def Group.stepAt (env : Env) (event : EventModel) (tenantId : String) (h : History)
    (g : Group) (i : Nat) : Group :=
  match g.branches[i]? with
  | none => g
  | some (.start workflowCp) =>
    match env.GetCreateWorkflowRunOptsFromEvent event workflowCp with
    | .error e =>
      { branches := g.branches.set i
          (.returning (some (.wrap "could not get create workflow run opts" e)))
        err := g.err
        calls := g.calls ++ [Call.GetCreateWorkflowRunOptsFromEvent event workflowCp none (some e)] }
    | .ok createOpts =>
      { branches := g.branches.set i (.haveOpts createOpts)
        err := g.err
        calls := g.calls ++
          [Call.GetCreateWorkflowRunOptsFromEvent event workflowCp (some createOpts) none] }
  | some (.haveOpts createOpts) =>
    match env.CreateNewWorkflowRun (h ++ g.calls) tenantId createOpts with
    | .error e =>
      { branches := g.branches.set i (.returning (some (.wrap "could not create workflow run" e)))
        err := g.err
        calls := g.calls ++ [Call.CreateNewWorkflowRun tenantId createOpts none (some e)] }
    | .ok workflowRun =>
      { branches := g.branches.set i (.haveRun workflowRun)
        err := g.err
        calls := g.calls ++ [Call.CreateNewWorkflowRun tenantId createOpts (some workflowRun) none] }
  | some (.haveRun workflowRun) =>
    let task := env.WorkflowRunQueuedToTask workflowRun
    let err := env.AddTask (h ++ g.calls) .WORKFLOW_PROCESSING_QUEUE task
    { branches := g.branches.set i (.returning err)
      err := g.err
      calls := g.calls ++ [Call.AddTask .WORKFLOW_PROCESSING_QUEUE task err] }
  | some (.returning err) =>
    { branches := g.branches.set i .done
      err := match g.err with
        | some first => some first
        | none => err
      calls := g.calls }
  | some .done => g

/-- Call `g.Wait()`: every goroutine that has not finished runs to its end (at most four
steps each), then the first recorded error is returned. -/
def Group.Wait (env : Env) (event : EventModel) (tenantId : String) (h : History)
    (g : Group) : Group :=
  (List.range g.branches.length).foldl
    (fun g i =>
      Group.stepAt env event tenantId h
        (Group.stepAt env event tenantId h
          (Group.stepAt env event tenantId h
            (Group.stepAt env event tenantId h g i) i) i) i)
    g

/-- The fan-out of `processEvent`: one goroutine per workflow, interleaved as `sched`
says (a list of goroutine positions), then `g.Wait()`.  Returns the error of
`g.Wait()` and the calls made. -/
def fanOut (env : Env) (event : EventModel) (workflows : List WorkflowModel)
    (sched : List Nat) (h : History) : Option GoError × List Call :=
  let g0 : Group := { branches := workflows.map Branch.start, err := none, calls := [] }
  let g1 := sched.foldl (Group.stepAt env event event.TenantID h) g0
  let g2 := Group.Wait env event event.TenantID h g1
  (g2.err, g2.calls)

/-- `EventsControllerImpl.processEvent`. -/
def processEvent (env : Env) (sched : List Nat) (h : History) (event : EventModel) :
    Option GoError × History :=
  match env.ListWorkflowsForEvent h event.TenantID event.Key with
  | .error e =>
    (some (.wrap "could not query workflows for event" e),
      h ++ [Call.ListWorkflowsForEvent event.TenantID event.Key [] (some e)])
  | .ok workflows =>
    let h1 := h ++ [Call.ListWorkflowsForEvent event.TenantID event.Key workflows none]
    let r := fanOut env event workflows sched h1
    (r.1, h1 ++ r.2)

/-- `EventsControllerImpl.handleTask`. -/
def handleTask (env : Env) (sched : List Nat) (h : History) (task : Task) :
    Option GoError × History :=
  match env.DecodeAndValidatePayload task.Payload with
  | .error e =>
    (some (.wrap "could not decode task payload" e),
      h ++ [Call.DecodeAndValidate .Payload task.Payload (some e)])
  | .ok payload =>
    let h1 := h ++ [Call.DecodeAndValidate .Payload task.Payload none]
    match env.DecodeAndValidateMetadata task.Metadata with
    | .error e =>
      (some (.wrap "could not decode task metadata" e),
        h1 ++ [Call.DecodeAndValidate .Metadata task.Metadata (some e)])
    | .ok _ =>
      let h2 := h1 ++ [Call.DecodeAndValidate .Metadata task.Metadata none]
      match env.GetEventById h2 payload.EventId with
      | .error e =>
        (some (.wrap "could not lookup event" e),
          h2 ++ [Call.GetEventById payload.EventId none (some e)])
      | .ok event =>
        processEvent env sched (h2 ++ [Call.GetEventById payload.EventId (some event) none]) event

/-- The body of one task-handling goroutine of the events controller.  `scheds` gives
the interleaving of the fan-out of each invocation. -/
def taskUnit (env : Env) (scheds : History → Task → List Nat) (h : History) (task : Task) :
    History :=
  let r := handleTask env (scheds h task) h task
  let h1 := r.2 ++ [Call.handleTask task r.1]
  match r.1 with
  | some e => h1 ++ [Call.logError ("could not handle event task " ++ task.ID) e]
  | none => h1

/-- The consumption loop of `EventsControllerImpl.Start`. -/
def consume (env : Env) (scheds : History → Task → List Nat) (sched : List Tick)
    (tasks : List Task) (h : History) : History :=
  Consumer.drain (taskUnit env scheds)
    (Consumer.run (taskUnit env scheds) sched { taskChan := tasks, inflight := [], trace := h })

end EventsControllerImpl

/-! ## Step-run repository -/

/-- The values of `db.StepRunStatus`, as the data model of the specification lists them. -/
inductive StepRunStatus where
  | PENDING
  | ASSIGNED
  | RUNNING
  | SUCCEEDED
  | FAILED
  | CANCELLED
deriving DecidableEq, Repr

/-- The struct `repository.UpdateStepRunOpts`.  A pointer field is an `Option`, a
`time.Time` is a number, a byte slice is `none` when it is `nil`. -/
structure UpdateStepRunOpts where
  IsRerun : Bool
  RequeueAfter : Option Nat
  ScheduleTimeoutAt : Option Nat
  Status : Option StepRunStatus
  StartedAt : Option Nat
  FailedAt : Option Nat
  FinishedAt : Option Nat
  CancelledAt : Option Nat
  CancelledReason : Option String
  Error : Option String
  Input : Option String
  Output : Option String
  RetryCount : Option Int
deriving DecidableEq, Repr

/-- The error value `repository.ErrStepRunIsNotPending`. -/
def ErrStepRunIsNotPending : GoError := .msg "step run is not pending"

/-- Modelled from the spec: the step-run record (`db.StepRunModel` is not among the
sources), with the attributes the data model of the specification gives a StepRun. -/
structure StepRun where
  ID : String
  TenantID : String
  status : StepRunStatus
  input : Option String
  output : Option String
  error : Option String
  startedAt : Option Nat
  finishedAt : Option Nat
  failedAt : Option Nat
  cancelledAt : Option Nat
  cancelledReason : Option String
  retryCount : Int
  scheduleTimeoutAt : Option Nat
  requeueAfter : Option Nat
deriving DecidableEq, Repr

/-- Modelled from the spec: how `updates` are applied to a step run (the implementation
of the repository is not among the sources).  The specification names status,
timestamps, input/output, error, retryCount, requeueAfter and scheduleTimeoutAt; a
field that is not set leaves the attribute as it is. -/
def StepRun.applyUpdates (run : StepRun) (opts : UpdateStepRunOpts) : StepRun :=
  { run with
    status := opts.Status.getD run.status
    input := opts.Input.orElse fun _ => run.input
    output := opts.Output.orElse fun _ => run.output
    error := opts.Error.orElse fun _ => run.error
    startedAt := opts.StartedAt.orElse fun _ => run.startedAt
    finishedAt := opts.FinishedAt.orElse fun _ => run.finishedAt
    failedAt := opts.FailedAt.orElse fun _ => run.failedAt
    cancelledAt := opts.CancelledAt.orElse fun _ => run.cancelledAt
    cancelledReason := opts.CancelledReason.orElse fun _ => run.cancelledReason
    retryCount := opts.RetryCount.getD run.retryCount
    scheduleTimeoutAt := opts.ScheduleTimeoutAt.orElse fun _ => run.scheduleTimeoutAt
    requeueAfter := opts.RequeueAfter.orElse fun _ => run.requeueAfter }

/-- Modelled from the spec: `StepRunRepository.QueueStepRun`, of which the sources hold
the interface declaration only.  The specification: it applies `updates` only if the
current status of the run is `PENDING` and returns an explicit not-pending signal
otherwise.  The argument is the record that `tenantId` and `stepRunId` select; the
result is what the call returns and the record afterwards. -/
def QueueStepRun (run : StepRun) (opts : UpdateStepRunOpts) : Except GoError StepRun × StepRun :=
  if run.status = .PENDING then
    (.ok (run.applyUpdates opts), run.applyUpdates opts)
  else
    (.error ErrStepRunIsNotPending, run)

/-- A sequence of `QueueStepRun` calls on the same run, in the order in which the store
serialises them: what each call returns, and the record after the last. -/
def QueueStepRun.calls : StepRun → List UpdateStepRunOpts → List (Except GoError StepRun) × StepRun
  | run, [] => ([], run)
  | run, opts :: rest =>
    let r := QueueStepRun run opts
    let rs := QueueStepRun.calls r.2 rest
    (r.1 :: rs.1, rs.2)

/-- Whether a call returned a record. -/
def succeeded (r : Except GoError StepRun) : Bool :=
  match r with
  | .ok _ => true
  | .error _ => false

/-- Whether a call returned `ErrStepRunIsNotPending`. -/
def notPending (r : Except GoError StepRun) : Bool :=
  match r with
  | .ok _ => false
  | .error e => e = ErrStepRunIsNotPending

/-- Options that set nothing. -/
def UpdateStepRunOpts.none : UpdateStepRunOpts :=
  { IsRerun := false, RequeueAfter := .none, ScheduleTimeoutAt := .none, Status := .none,
    StartedAt := .none, FailedAt := .none, FinishedAt := .none, CancelledAt := .none,
    CancelledReason := .none, Error := .none, Input := .none, Output := .none,
    RetryCount := .none }

/-- A step run `S` in status `PENDING`, as in the scenario of the specification. -/
def sampleStepRun : StepRun :=
  { ID := "S", TenantID := "t1", status := .PENDING, input := none, output := none,
    error := none, startedAt := none, finishedAt := none, failedAt := none,
    cancelledAt := none, cancelledReason := none, retryCount := 0,
    scheduleTimeoutAt := none, requeueAfter := none }

/-- The update `\x7bstatus: ASSIGNED\x7d` of the scenario of the specification. -/
def toAssigned : UpdateStepRunOpts :=
  { UpdateStepRunOpts.none with Status := some .ASSIGNED }

/-! ## Concrete collaborators, for evaluating the embedding -/

/-- Collaborators that always succeed. -/
def okEnv : Env where
  CreateNewTicker := fun _ id => .ok { ID := id }
  Subscribe := fun _ _ => none
  NewJob := fun _ _ _ => none
  cleanupQueue := fun _ => none
  Delete := fun _ _ => none
  Shutdown := fun _ => none
  AddTask := fun _ _ _ => none
  ListTenants := fun _ => .ok [{ ID := "t1" }, { ID := "t2" }]
  runHandler := fun _ _ _ => none
  TenantToGroupKeyActionRequeueTask := fun tenant =>
    { ID := "group-key-action-requeue-ticker", Payload := [("tenant_id", tenant.ID)],
      Metadata := [("tenant_id", tenant.ID)] }
  ToJSONMapRemoveTickerTaskPayload := fun p => [("ticker_id", p.TickerId)]
  ToJSONMapRemoveTickerTaskMetadata := []
  DecodeAndValidatePayload := fun data =>
    match data.lookup "event_id" with
    | some id => .ok { EventId := id }
    | none => .error (.msg "event_id is required")
  DecodeAndValidateMetadata := fun data =>
    match data.lookup "event_key", data.lookup "tenant_id" with
    | some key, some tenant => .ok { EventKey := key, TenantId := tenant }
    | _, _ => .error (.msg "event_key and tenant_id are required")
  GetEventById := fun _ id => .ok { ID := id, TenantID := "t1", Key := "user.created" }
  ListWorkflowsForEvent := fun _ _ _ => .ok [{ ID := "A" }, { ID := "B" }]
  GetCreateWorkflowRunOptsFromEvent := fun event workflow =>
    .ok { WorkflowVersionId := workflow.ID, TriggeringEventId := event.ID }
  CreateNewWorkflowRun := fun _ tenantId opts =>
    .ok { ID := "run-" ++ opts.WorkflowVersionId, TenantID := tenantId }
  WorkflowRunQueuedToTask := fun run =>
    { ID := "workflow-run-queued", Payload := [("workflow_run_id", run.ID)],
      Metadata := [("tenant_id", run.TenantID)] }

/-- The event `E` of the scenario of the specification. -/
def sampleEvent : EventModel := { ID := "E", TenantID := "t1", Key := "user.created" }

/-- An event task that refers to the event `E`. -/
def sampleEventTask : Task :=
  { ID := "event", Payload := [("event_id", "E")],
    Metadata := [("event_key", "user.created"), ("tenant_id", "t1")] }

/-- A ticker instance. -/
def sampleTicker : TickerImpl.Ticker := { tickerId := "ticker-1" }

/-! ## Observations on a history -/

/-- The error a recorded action ended with, `none` when it succeeded. -/
def Call.err : Call → Option GoError
  | .CreateNewTicker _ _ err => err
  | .Subscribe _ err => err
  | .NewJob _ _ err => err
  | .SchedulerStart => none
  | .cancel => none
  | .cleanupQueue err => err
  | .wgWait => none
  | .Delete _ err => err
  | .Shutdown err => err
  | .AddTask _ _ err => err
  | .ListTenants _ err => err
  | .handler _ _ err => err
  | .handleTask _ err => err
  | .logError _ _ => none
  | .DecodeAndValidate _ _ err => err
  | .GetEventById _ _ err => err
  | .ListWorkflowsForEvent _ _ _ err => err
  | .GetCreateWorkflowRunOptsFromEvent _ _ _ err => err
  | .CreateNewWorkflowRun _ _ _ err => err

/-- Every `AddTask` attempted, successful or not: queue and task, in order. -/
def addTaskCalls (h : List Call) : List (QueueType × Task) :=
  h.filterMap fun c =>
    match c with
    | .AddTask queue task _ => some (queue, task)
    | _ => none

/-- The tasks that are on a queue: the `AddTask` calls that returned no error. -/
def enqueued (h : List Call) : List (QueueType × Task) :=
  h.filterMap fun c =>
    match c with
    | .AddTask queue task none => some (queue, task)
    | _ => none

/-- The tasks for which a task-handling goroutine has called `handleTask`, in the
order in which the calls returned. -/
def handledTasks (h : List Call) : List Task :=
  h.filterMap fun c =>
    match c with
    | .handleTask task _ => some task
    | _ => none

/-- The errors logged by the task-handling goroutines: message and error. -/
def loggedErrors (h : List Call) : List (String × GoError) :=
  h.filterMap fun c =>
    match c with
    | .logError text e => some (text, e)
    | _ => none

/-- The pairs of event and workflow `GetCreateWorkflowRunOptsFromEvent` was called on. -/
def derivedFor (h : List Call) : List (EventModel × WorkflowModel) :=
  h.filterMap fun c =>
    match c with
    | .GetCreateWorkflowRunOptsFromEvent event workflow _ _ => some (event, workflow)
    | _ => none

/-- The options `GetCreateWorkflowRunOptsFromEvent` returned. -/
def derivedOpts (h : List Call) : List CreateWorkflowRunOpts :=
  h.filterMap fun c =>
    match c with
    | .GetCreateWorkflowRunOptsFromEvent _ _ (some opts) _ => some opts
    | _ => none

/-- Every `CreateNewWorkflowRun` attempted: tenant id and options. -/
def createCalls (h : List Call) : List (String × CreateWorkflowRunOpts) :=
  h.filterMap fun c =>
    match c with
    | .CreateNewWorkflowRun tenantId opts _ _ => some (tenantId, opts)
    | _ => none

/-- The workflow runs that are in the store: the ones `CreateNewWorkflowRun` returned. -/
def createdRuns (h : List Call) : List WorkflowRunModel :=
  h.filterMap fun c =>
    match c with
    | .CreateNewWorkflowRun _ _ (some run) _ => some run
    | _ => none

/-- The error the goroutine of `processEvent` that made a failing call returns:
wrapped for option derivation and run creation, as it is for `AddTask`. -/
def branchError : Call → Option GoError
  | .GetCreateWorkflowRunOptsFromEvent _ _ _ (some e) =>
    some (.wrap "could not get create workflow run opts" e)
  | .CreateNewWorkflowRun _ _ _ (some e) => some (.wrap "could not create workflow run" e)
  | .AddTask _ _ (some e) => some e
  | _ => none

/-- The errors returned by the goroutines of `processEvent`. -/
def branchErrors (h : List Call) : List GoError :=
  h.filterMap branchError

/-- Whether an action is one of the three calls a goroutine of `processEvent` makes,
recorded with a result exactly when it has no error. -/
def Call.isFanOut : Call → Bool
  | .GetCreateWorkflowRunOptsFromEvent _ _ opts err => opts.isSome != err.isSome
  | .CreateNewWorkflowRun _ _ run err => run.isSome != err.isSome
  | .AddTask _ _ _ => true
  | _ => false

/-- Whether an action belongs to a task-handling goroutine of the ticker: a handler
call, the return of `handleTask`, or the error log line that follows it. -/
def Call.isUnitEvent : Call → Bool
  | .handler _ _ _ => true
  | .handleTask _ _ => true
  | .logError _ _ => true
  | _ => false

/-- Collaborators as in `okEnv`, except that the scheduler refuses the heartbeat job. -/
def heartbeatFailsEnv : Env :=
  { okEnv with
    NewJob := fun _ _ action =>
      match action with
      | .runUpdateHeartbeat => some (.msg "scheduler: job rejected")
      | .runGetGroupKeyRunRequeue => none }

/-- Collaborators as in `okEnv`, except that the cleanup of the subscription fails. -/
def cleanupQueueFailsEnv : Env :=
  { okEnv with cleanupQueue := fun _ => some (.msg "channel already closed") }

/-- Collaborators as in `okEnv`, except that deleting a ticker fails. -/
def deleteFailsEnv : Env :=
  { okEnv with Delete := fun _ _ => some (.msg "record not found") }

/-- The workflow a goroutine of `processEvent` has not derived options for yet. -/
def EventsControllerImpl.Branch.pendingWorkflow : EventsControllerImpl.Branch → Option WorkflowModel
  | .start workflowCp => some workflowCp
  | _ => none

/-- The options a goroutine of `processEvent` holds and has not created a run from yet. -/
def EventsControllerImpl.Branch.heldOpts :
    EventsControllerImpl.Branch → Option CreateWorkflowRunOpts
  | .haveOpts createOpts => some createOpts
  | _ => none

/-- The run a goroutine of `processEvent` holds and has not enqueued a task for yet. -/
def EventsControllerImpl.Branch.heldRun : EventsControllerImpl.Branch → Option WorkflowRunModel
  | .haveRun workflowRun => some workflowRun
  | _ => none

/-- The number of steps a goroutine of `processEvent` has left at most. -/
def EventsControllerImpl.Branch.stepsLeft : EventsControllerImpl.Branch → Nat
  | .start _ => 4
  | .haveOpts _ => 3
  | .haveRun _ => 2
  | .returning _ => 1
  | .done => 0

/-- What relates the goroutines of a group to the calls made so far: every workflow is
either still to be looked at or has had its options derived; every set of options
derived is either still held or was passed to `CreateNewWorkflowRun` with the tenant
id; every run created is either still held or had its task passed to `AddTask`; the
error recorded by the group, and every error still being returned, is the error of a
failing call; while no error is recorded every failure is still being returned. -/
structure EventsControllerImpl.Group.Inv (env : Env) (event : EventModel) (tenantId : String)
    (workflows : List WorkflowModel) (g : EventsControllerImpl.Group) : Prop where
  derived : (derivedFor g.calls ++
      (g.branches.filterMap Branch.pendingWorkflow).map (Prod.mk event)).Perm
    (workflows.map (Prod.mk event))
  created : (createCalls g.calls ++
      (g.branches.filterMap Branch.heldOpts).map (Prod.mk tenantId)).Perm
    ((derivedOpts g.calls).map (Prod.mk tenantId))
  added : (addTaskCalls g.calls ++
      (g.branches.filterMap Branch.heldRun).map
        (fun run => (QueueType.WORKFLOW_PROCESSING_QUEUE, env.WorkflowRunQueuedToTask run))).Perm
    ((createdRuns g.calls).map
      (fun run => (QueueType.WORKFLOW_PROCESSING_QUEUE, env.WorkflowRunQueuedToTask run)))
  pending : g.err = none → ∀ e ∈ branchErrors g.calls, Branch.returning (some e) ∈ g.branches
  sound : ∀ e, (g.err = some e ∨ Branch.returning (some e) ∈ g.branches) →
    e ∈ branchErrors g.calls
  kinds : ∀ c ∈ g.calls, c.isFanOut = true

/-- Collaborators as in `okEnv`, except that no run can be created for workflow `B`. -/
def createFailsEnv : Env :=
  { okEnv with
    CreateNewWorkflowRun := fun _ tenantId opts =>
      if opts.WorkflowVersionId = "B" then .error (.msg "unique constraint violated")
      else .ok { ID := "run-" ++ opts.WorkflowVersionId, TenantID := tenantId } }

/-- Every `ListWorkflowsForEvent` attempted: tenant id and event key. -/
def listWorkflowsCalls (h : List Call) : List (String × String) :=
  h.filterMap fun c =>
    match c with
    | .ListWorkflowsForEvent tenantId key _ _ => some (tenantId, key)
    | _ => none

/-- Collaborators as in `okEnv`, except that no event can be looked up. -/
def lookupFailsEnv : Env :=
  { okEnv with GetEventById := fun _ _ => .error (.msg "event not found") }

/-- An event task whose payload lacks the event id. -/
def malformedEventTask : Task :=
  { ID := "event", Payload := [("id", "E")],
    Metadata := [("event_key", "user.created"), ("tenant_id", "t1")] }

/-- The task kinds the specification lists as recognised by the ticker, each with
the handler it names. -/
def specTaskKinds : List (String × Handler) :=
  [("schedule-step-run-timeout", .handleScheduleStepRunTimeout),
   ("cancel-step-run-timeout", .handleCancelStepRunTimeout),
   ("schedule-get-group-key-run-timeout", .handleScheduleGetGroupKeyRunTimeout),
   ("cancel-get-group-key-run-timeout", .handleCancelGetGroupKeyRunTimeout),
   ("schedule-job-run-timeout", .handleScheduleJobRunTimeout),
   ("cancel-job-run-timeout", .handleCancelJobRunTimeout),
   ("schedule-cron", .handleScheduleCron),
   ("cancel-cron", .handleCancelCron),
   ("schedule-workflow", .handleScheduleWorkflow),
   ("cancel-workflow", .handleCancelWorkflow)]

/-- The handler calls recorded in a history. -/
def handlerCalls (h : History) : List (Handler × Task) :=
  h.filterMap fun c =>
    match c with
    | .handler which task _ => some (which, task)
    | _ => none

/-! ## Ticker: dispatch of `handleTask` -/

theorem TickerImpl.invoke_eq (env : Env) (which : Handler) (h : History) (task : Task) :
    TickerImpl.invoke env which h task =
      (env.runHandler which h task, h ++ [Call.handler which task (env.runHandler which h task)]) :=
  rfl

theorem specTaskKinds_lookup_none (id : String) (hid : specTaskKinds.lookup id = none) :
    id ≠ "schedule-step-run-timeout" ∧ id ≠ "cancel-step-run-timeout" ∧
    id ≠ "schedule-get-group-key-run-timeout" ∧ id ≠ "cancel-get-group-key-run-timeout" ∧
    id ≠ "schedule-job-run-timeout" ∧ id ≠ "cancel-job-run-timeout" ∧
    id ≠ "schedule-cron" ∧ id ≠ "cancel-cron" ∧
    id ≠ "schedule-workflow" ∧ id ≠ "cancel-workflow" := by
  refine ⟨?_, ?_, ?_, ?_, ?_, ?_, ?_, ?_, ?_, ?_⟩ <;>
    (intro hc; subst hc; revert hid; decide)

theorem specTaskKinds_lookup_some (id : String) (which : Handler)
    (hid : specTaskKinds.lookup id = some which) :
    (id, which) ∈ specTaskKinds := by
  simp only [specTaskKinds, List.lookup] at hid
  simp only [specTaskKinds]
  repeat' split at hid
  all_goals simp_all

theorem TickerImpl.handleTask_recognised (env : Env) (h : History) (task : Task)
    (which : Handler) (hlook : specTaskKinds.lookup task.ID = some which) :
    TickerImpl.handleTask env h task = TickerImpl.invoke env which h task := by
  have hmem := specTaskKinds_lookup_some task.ID which hlook
  simp only [specTaskKinds, List.mem_cons, Prod.mk.injEq, List.mem_singleton,
    List.not_mem_nil, or_false] at hmem
  rcases hmem with hm | hm | hm | hm | hm | hm | hm | hm | hm | hm <;>
    (obtain ⟨hid, hw⟩ := hm; subst hw; simp [TickerImpl.handleTask, hid])

theorem TickerImpl.handleTask_unknown (env : Env) (h : History) (task : Task)
    (hlook : specTaskKinds.lookup task.ID = none) :
    TickerImpl.handleTask env h task = (some (.msg ("unknown task: " ++ task.ID)), h) := by
  obtain ⟨h1, h2, h3, h4, h5, h6, h7, h8, h9, h10⟩ := specTaskKinds_lookup_none task.ID hlook
  simp [TickerImpl.handleTask, h1, h2, h3, h4, h5, h6, h7, h8, h9, h10]

/-- Claim C1: `handleTask` of the ticker invokes a handler exactly when `task.ID` is one
of the ten recognised kinds; then it invokes the handler of that kind, once, on the task
and returns its result; for every other id (the disabled `schedule-step-requeue` and
`cancel-step-requeue` and the empty string among them) it invokes no handler and returns
the error `unknown task: <id>`. -/
theorem ticker_handleTask_dispatch (env : Env) (h : History) (task : Task) :
    (∀ which, specTaskKinds.lookup task.ID = some which →
        (TickerImpl.handleTask env h task).1 = env.runHandler which h task ∧
        (TickerImpl.handleTask env h task).2 =
          h ++ [Call.handler which task (env.runHandler which h task)] ∧
        handlerCalls (TickerImpl.handleTask env h task).2 = handlerCalls h ++ [(which, task)]) ∧
    (specTaskKinds.lookup task.ID = none →
        TickerImpl.handleTask env h task = (some (.msg ("unknown task: " ++ task.ID)), h) ∧
        ((TickerImpl.handleTask env h task).1.map GoError.Error =
          some ("unknown task: " ++ task.ID))) ∧
    (handlerCalls (TickerImpl.handleTask env h task).2 ≠ handlerCalls h ↔
        (specTaskKinds.lookup task.ID).isSome) ∧
    specTaskKinds.lookup "schedule-step-requeue" = none ∧
    specTaskKinds.lookup "cancel-step-requeue" = none ∧
    specTaskKinds.lookup "" = none ∧
    specTaskKinds.length = 10 := by
  have hsome := TickerImpl.handleTask_recognised env h task
  have hnone := TickerImpl.handleTask_unknown env h task
  refine ⟨?_, ?_, ?_, by decide, by decide, by decide, by decide⟩
  · intro which hlook
    rw [hsome which hlook, TickerImpl.invoke_eq]
    simp [handlerCalls, List.filterMap_append]
  · intro hlook
    rw [hnone hlook]
    simp [GoError.Error]
  · cases hlook : specTaskKinds.lookup task.ID with
    | none => rw [hnone hlook]; simp
    | some which =>
      rw [hsome which hlook, TickerImpl.invoke_eq]
      simp [handlerCalls, List.filterMap_append]

/-! ## Ticker: the requeue scan -/

theorem addTaskCalls_append (a b : List Call) :
    addTaskCalls (a ++ b) = addTaskCalls a ++ addTaskCalls b := by
  simp [addTaskCalls, List.filterMap_append]

theorem TickerImpl.requeue_loop_spec (env : Env) (tenants : List TenantModel) :
    ∀ h : History, ∃ new : List Call,
      TickerImpl.runGetGroupKeyRunRequeue.loop env tenants h = h ++ new ∧
      addTaskCalls new =
        tenants.map (fun tenant =>
          (QueueType.WORKFLOW_PROCESSING_QUEUE, env.TenantToGroupKeyActionRequeueTask tenant)) := by
  induction tenants with
  | nil => intro h; exact ⟨[], by simp [TickerImpl.runGetGroupKeyRunRequeue.loop], by simp [addTaskCalls]⟩
  | cons tenant rest ih =>
    intro h
    simp only [TickerImpl.runGetGroupKeyRunRequeue.loop]
    cases herr : env.AddTask h .WORKFLOW_PROCESSING_QUEUE
        (env.TenantToGroupKeyActionRequeueTask tenant) with
    | none =>
      obtain ⟨new, hnew, hadd⟩ := ih (h ++ [Call.AddTask .WORKFLOW_PROCESSING_QUEUE
        (env.TenantToGroupKeyActionRequeueTask tenant) none])
      refine ⟨Call.AddTask .WORKFLOW_PROCESSING_QUEUE
        (env.TenantToGroupKeyActionRequeueTask tenant) none :: new, ?_, ?_⟩
      · simp only [hnew]; simp
      · simp [addTaskCalls, List.filterMap_cons] at hadd ⊢; exact hadd
    | some e =>
      obtain ⟨new, hnew, hadd⟩ := ih (h ++ [Call.AddTask .WORKFLOW_PROCESSING_QUEUE
        (env.TenantToGroupKeyActionRequeueTask tenant) (some e)] ++
        [Call.logError "could not add get group key run requeue task" e])
      refine ⟨Call.AddTask .WORKFLOW_PROCESSING_QUEUE
        (env.TenantToGroupKeyActionRequeueTask tenant) (some e) ::
        Call.logError "could not add get group key run requeue task" e :: new, ?_, ?_⟩
      · simp only [hnew]; simp
      · simp [addTaskCalls, List.filterMap_cons] at hadd ⊢; exact hadd

/-- Claim C6: one run of `runGetGroupKeyRunRequeue` attempts `AddTask` on the
workflow-processing queue exactly once per tenant returned by `ListTenants`, in list
order, with the requeue task built from that tenant, whatever the earlier `AddTask`
calls returned; when `ListTenants` fails, no task is added. -/
theorem requeue_scan_one_task_per_tenant (env : Env) (h : History) :
    (∀ tenants, env.ListTenants h = .ok tenants →
      ∃ new : List Call,
        TickerImpl.runGetGroupKeyRunRequeue env h = h ++ Call.ListTenants tenants none :: new ∧
        addTaskCalls new =
          tenants.map (fun tenant =>
            (QueueType.WORKFLOW_PROCESSING_QUEUE,
              env.TenantToGroupKeyActionRequeueTask tenant))) ∧
    (∀ e, env.ListTenants h = .error e →
      TickerImpl.runGetGroupKeyRunRequeue env h =
        h ++ [Call.ListTenants [] (some e), Call.logError "could not list tenants" e] ∧
      addTaskCalls (TickerImpl.runGetGroupKeyRunRequeue env h) = addTaskCalls h) := by
  constructor
  · intro tenants hlist
    obtain ⟨new, hnew, hadd⟩ :=
      TickerImpl.requeue_loop_spec env tenants (h ++ [Call.ListTenants tenants none])
    refine ⟨new, ?_, hadd⟩
    simp only [TickerImpl.runGetGroupKeyRunRequeue, hlist, hnew]
    simp
  · intro e hlist
    simp only [TickerImpl.runGetGroupKeyRunRequeue, hlist]
    simp [addTaskCalls, List.filterMap_append]

/-! ## Ticker: `Start` -/

/-- Claim C9, the defect: when registration, subscription and the scheduling of the
requeue scan succeed and the scheduling of the heartbeat update fails with `e`, `Start`
still starts the scheduler and returns the cleanup function without an error; the
failed `NewJob` is in the history and nothing reports it. -/
theorem ticker_Start_ignores_heartbeat_scheduling_error (t : TickerImpl.Ticker) (env : Env)
    (h : History) (ticker : TickerModel) (e : GoError)
    (hcreate : env.CreateNewTicker h t.tickerId = .ok ticker)
    (hsub : env.Subscribe (h ++ [Call.CreateNewTicker t.tickerId (some ticker) none])
      (.QueueTypeFromTickerID ticker.ID) = none)
    (hjob : env.NewJob (h ++ [Call.CreateNewTicker t.tickerId (some ticker) none] ++
      [Call.Subscribe (.QueueTypeFromTickerID ticker.ID) none]) 5 .runGetGroupKeyRunRequeue = none)
    (hbeat : env.NewJob (h ++ [Call.CreateNewTicker t.tickerId (some ticker) none] ++
      [Call.Subscribe (.QueueTypeFromTickerID ticker.ID) none] ++
      [Call.NewJob 5 .runGetGroupKeyRunRequeue none]) 5 .runUpdateHeartbeat = some e) :
    TickerImpl.Start t env h =
      (.cleanup,
        h ++ [Call.CreateNewTicker t.tickerId (some ticker) none,
          Call.Subscribe (.QueueTypeFromTickerID ticker.ID) none,
          Call.NewJob 5 .runGetGroupKeyRunRequeue none,
          Call.NewJob 5 .runUpdateHeartbeat (some e),
          Call.SchedulerStart]) := by
  simp only [TickerImpl.Start, hcreate, hsub, hjob, hbeat]
  simp

theorem ticker_Start_ignores_heartbeat_scheduling_error_witness :
    TickerImpl.Start sampleTicker heartbeatFailsEnv [] =
      (.cleanup,
        [] ++ [Call.CreateNewTicker "ticker-1" (some { ID := "ticker-1" }) none,
          Call.Subscribe (.QueueTypeFromTickerID "ticker-1") none,
          Call.NewJob 5 .runGetGroupKeyRunRequeue none,
          Call.NewJob 5 .runUpdateHeartbeat (some (.msg "scheduler: job rejected")),
          Call.SchedulerStart]) :=
  ticker_Start_ignores_heartbeat_scheduling_error sampleTicker heartbeatFailsEnv []
    { ID := "ticker-1" } (.msg "scheduler: job rejected") rfl rfl rfl rfl

/-! ## Ticker: the cleanup function -/

theorem TickerImpl.taskUnit_spec (env : Env) (h : History) (task : Task) :
    ∃ new : List Call, TickerImpl.taskUnit env h task = h ++ new ∧
      handledTasks new = [task] ∧ (∀ c ∈ new, c.isUnitEvent = true) := by
  cases hlook : specTaskKinds.lookup task.ID with
  | none =>
    have h1 := TickerImpl.handleTask_unknown env h task hlook
    refine ⟨[Call.handleTask task (some (.msg ("unknown task: " ++ task.ID))),
      Call.logError ("could not handle ticker task " ++ task.ID)
        (.msg ("unknown task: " ++ task.ID))], ?_, ?_, ?_⟩
    · simp [TickerImpl.taskUnit, h1]
    · simp [handledTasks]
    · simp [Call.isUnitEvent]
  | some which =>
    have h1 := TickerImpl.handleTask_recognised env h task which hlook
    rw [TickerImpl.invoke_eq] at h1
    cases herr : env.runHandler which h task with
    | none =>
      refine ⟨[Call.handler which task none, Call.handleTask task none], ?_, ?_, ?_⟩
      · simp [TickerImpl.taskUnit, h1, herr]
      · simp [handledTasks]
      · simp [Call.isUnitEvent]
    | some e =>
      refine ⟨[Call.handler which task (some e), Call.handleTask task (some e),
        Call.logError ("could not handle ticker task " ++ task.ID) e], ?_, ?_, ?_⟩
      · simp [TickerImpl.taskUnit, h1, herr]
      · simp [handledTasks]
      · simp [Call.isUnitEvent]

theorem TickerImpl.units_spec (env : Env) (tasks : List Task) :
    ∀ h : History, ∃ new : List Call, tasks.foldl (TickerImpl.taskUnit env) h = h ++ new ∧
      handledTasks new = tasks ∧ (∀ c ∈ new, c.isUnitEvent = true) := by
  induction tasks with
  | nil => intro h; exact ⟨[], by simp, by simp [handledTasks], by simp⟩
  | cons task rest ih =>
    intro h
    obtain ⟨n1, hn1, ht1, hu1⟩ := TickerImpl.taskUnit_spec env h task
    obtain ⟨n2, hn2, ht2, hu2⟩ := ih (h ++ n1)
    refine ⟨n1 ++ n2, ?_, ?_, ?_⟩
    · simp only [List.foldl_cons, hn1, hn2]; simp
    · simp only [handledTasks, List.filterMap_append] at ht1 ht2 ⊢
      rw [ht1, ht2]; rfl
    · intro c hc
      rcases List.mem_append.1 hc with hc | hc
      · exact hu1 c hc
      · exact hu2 c hc

theorem addTaskCalls_units (units : List Call) (hu : ∀ c ∈ units, c.isUnitEvent = true) :
    addTaskCalls units = [] := by
  induction units with
  | nil => rfl
  | cons c rest ih =>
    have hc := hu c (List.mem_cons_self c rest)
    have hrest := ih (fun d hd => hu d (List.mem_cons_of_mem c hd))
    clear hu ih
    cases c <;>
      first
      | (simp [Call.isUnitEvent] at hc; done)
      | (simpa [addTaskCalls, List.filterMap_cons] using hrest)

theorem enqueued_units (units : List Call) (hu : ∀ c ∈ units, c.isUnitEvent = true) :
    enqueued units = [] := by
  induction units with
  | nil => rfl
  | cons c rest ih =>
    have hc := hu c (List.mem_cons_self c rest)
    have hrest := ih (fun d hd => hu d (List.mem_cons_of_mem c hd))
    clear hu ih
    cases c <;>
      first
      | (simp [Call.isUnitEvent] at hc; done)
      | (simpa [enqueued, List.filterMap_cons] using hrest)

theorem enqueued_append (a b : List Call) : enqueued (a ++ b) = enqueued a ++ enqueued b := by
  simp [enqueued, List.filterMap_append]

theorem delete_not_mem_units (units : List Call) (hu : ∀ c ∈ units, c.isUnitEvent = true)
    (id : String) (err : Option GoError) : Call.Delete id err ∉ units := by
  intro hmem
  have := hu _ hmem
  simp [Call.isUnitEvent] at this

/-- Claim C7, as the code has it: the cleanup function cancels the context, lets the
queue subscription clean up, waits for every task-handling goroutine in flight (each of
them has run `handleTask` by then), deletes the record of the ticker, adds the task
`ticker-removed` (whose payload is built from the ticker id) to the job-processing
queue and shuts the scheduler down, in this order.  Each of queue cleanup, delete,
add-task and shutdown is attempted only when every earlier one returned no error, and
the first error is what the function returns (wrapped for queue cleanup and shutdown,
as it is and logged for delete and add-task); when all four return no error the result
is no error.  So the record is deleted exactly on the shutdowns whose queue cleanup and
delete succeed, and the task is on the queue exactly on those whose add-task succeeds
as well. -/
theorem ticker_cleanup_sequence (t : TickerImpl.Ticker) (env : Env) (early late : List Task)
    (h : History) :
    (TickerImpl.tickerRemoved env t.tickerId).ID = "ticker-removed" ∧
    (TickerImpl.tickerRemoved env t.tickerId).Payload =
      env.ToJSONMapRemoveTickerTaskPayload { TickerId := t.tickerId } ∧
    ∃ (units1 units2 : List Call) (h1 h2 h3 h4 : History),
      early.foldl (TickerImpl.taskUnit env) (h ++ [Call.cancel]) = h1 ∧
      h1 = h ++ [Call.cancel] ++ units1 ∧
      late.foldl (TickerImpl.taskUnit env) (h1 ++ [Call.cleanupQueue none]) =
        h1 ++ [Call.cleanupQueue none] ++ units2 ∧
      h2 = h1 ++ [Call.cleanupQueue none] ++ units2 ++ [Call.wgWait] ∧
      h3 = h2 ++ [Call.Delete t.tickerId none] ∧
      h4 = h3 ++
        [Call.AddTask .JOB_PROCESSING_QUEUE (TickerImpl.tickerRemoved env t.tickerId) none] ∧
      handledTasks units1 = early ∧ handledTasks units2 = late ∧
      (∀ c ∈ units1 ++ units2, c.isUnitEvent = true) ∧
      (∀ e, env.cleanupQueue h1 = some e →
        TickerImpl.cleanup t env early late h =
          (some (.wrap "could not cleanup queue" e), h1 ++ [Call.cleanupQueue (some e)])) ∧
      (env.cleanupQueue h1 = none →
        (∀ e, env.Delete h2 t.tickerId = some e →
          TickerImpl.cleanup t env early late h =
            (some e, h2 ++ [Call.Delete t.tickerId (some e),
              Call.logError "could not delete ticker" e])) ∧
        (env.Delete h2 t.tickerId = none →
          (∀ e, env.AddTask h3 .JOB_PROCESSING_QUEUE
              (TickerImpl.tickerRemoved env t.tickerId) = some e →
            TickerImpl.cleanup t env early late h =
              (some e, h3 ++ [Call.AddTask .JOB_PROCESSING_QUEUE
                  (TickerImpl.tickerRemoved env t.tickerId) (some e),
                Call.logError "could not add ticker removed task" e])) ∧
          (env.AddTask h3 .JOB_PROCESSING_QUEUE
              (TickerImpl.tickerRemoved env t.tickerId) = none →
            (∀ e, env.Shutdown h4 = some e →
              TickerImpl.cleanup t env early late h =
                (some (.wrap "could not shutdown scheduler" e),
                  h4 ++ [Call.Shutdown (some e)])) ∧
            (env.Shutdown h4 = none →
              TickerImpl.cleanup t env early late h = (none, h4 ++ [Call.Shutdown none]))))) ∧
      ∃ new : List Call,
        (TickerImpl.cleanup t env early late h).2 = h ++ new ∧
        (Call.Delete t.tickerId none ∈ new ↔
          env.cleanupQueue h1 = none ∧ env.Delete h2 t.tickerId = none) ∧
        ((QueueType.JOB_PROCESSING_QUEUE, TickerImpl.tickerRemoved env t.tickerId) ∈
            enqueued new ↔
          env.cleanupQueue h1 = none ∧ env.Delete h2 t.tickerId = none ∧
            env.AddTask h3 .JOB_PROCESSING_QUEUE
              (TickerImpl.tickerRemoved env t.tickerId) = none) ∧
        ((TickerImpl.cleanup t env early late h).1 = none ↔
          env.cleanupQueue h1 = none ∧ env.Delete h2 t.tickerId = none ∧
            env.AddTask h3 .JOB_PROCESSING_QUEUE
              (TickerImpl.tickerRemoved env t.tickerId) = none ∧
            env.Shutdown h4 = none) := by
  refine ⟨rfl, rfl, ?_⟩
  obtain ⟨u1, hu1, ht1, he1⟩ := TickerImpl.units_spec env early (h ++ [Call.cancel])
  obtain ⟨u2, hu2, ht2, he2⟩ :=
    TickerImpl.units_spec env late (h ++ [Call.cancel] ++ u1 ++ [Call.cleanupQueue none])
  have hunits : ∀ c ∈ u1 ++ u2, c.isUnitEvent = true := by
    intro c hc
    rcases List.mem_append.1 hc with hc | hc
    · exact he1 c hc
    · exact he2 c hc
  have hq1 := enqueued_units u1 he1
  have hq2 := enqueued_units u2 he2
  have hd1 := delete_not_mem_units u1 he1 t.tickerId none
  have hd2 := delete_not_mem_units u2 he2 t.tickerId none
  refine ⟨u1, u2, h ++ [Call.cancel] ++ u1,
    h ++ [Call.cancel] ++ u1 ++ [Call.cleanupQueue none] ++ u2 ++ [Call.wgWait],
    h ++ [Call.cancel] ++ u1 ++ [Call.cleanupQueue none] ++ u2 ++ [Call.wgWait] ++
      [Call.Delete t.tickerId none],
    h ++ [Call.cancel] ++ u1 ++ [Call.cleanupQueue none] ++ u2 ++ [Call.wgWait] ++
      [Call.Delete t.tickerId none] ++
      [Call.AddTask .JOB_PROCESSING_QUEUE (TickerImpl.tickerRemoved env t.tickerId) none],
    hu1, rfl, hu2, rfl, rfl, rfl, ht1, ht2, hunits, ?_⟩
  have hnest :
      (∀ e, env.cleanupQueue (h ++ [Call.cancel] ++ u1) = some e →
        TickerImpl.cleanup t env early late h =
          (some (.wrap "could not cleanup queue" e),
            h ++ [Call.cancel] ++ u1 ++ [Call.cleanupQueue (some e)])) ∧
      (env.cleanupQueue (h ++ [Call.cancel] ++ u1) = none →
        (∀ e, env.Delete (h ++ [Call.cancel] ++ u1 ++ [Call.cleanupQueue none] ++ u2 ++
            [Call.wgWait]) t.tickerId = some e →
          TickerImpl.cleanup t env early late h =
            (some e, h ++ [Call.cancel] ++ u1 ++ [Call.cleanupQueue none] ++ u2 ++
              [Call.wgWait] ++ [Call.Delete t.tickerId (some e),
              Call.logError "could not delete ticker" e])) ∧
        (env.Delete (h ++ [Call.cancel] ++ u1 ++ [Call.cleanupQueue none] ++ u2 ++
            [Call.wgWait]) t.tickerId = none →
          (∀ e, env.AddTask (h ++ [Call.cancel] ++ u1 ++ [Call.cleanupQueue none] ++ u2 ++
              [Call.wgWait] ++ [Call.Delete t.tickerId none]) .JOB_PROCESSING_QUEUE
              (TickerImpl.tickerRemoved env t.tickerId) = some e →
            TickerImpl.cleanup t env early late h =
              (some e, h ++ [Call.cancel] ++ u1 ++ [Call.cleanupQueue none] ++ u2 ++
                [Call.wgWait] ++ [Call.Delete t.tickerId none] ++
                [Call.AddTask .JOB_PROCESSING_QUEUE
                  (TickerImpl.tickerRemoved env t.tickerId) (some e),
                Call.logError "could not add ticker removed task" e])) ∧
          (env.AddTask (h ++ [Call.cancel] ++ u1 ++ [Call.cleanupQueue none] ++ u2 ++
              [Call.wgWait] ++ [Call.Delete t.tickerId none]) .JOB_PROCESSING_QUEUE
              (TickerImpl.tickerRemoved env t.tickerId) = none →
            (∀ e, env.Shutdown (h ++ [Call.cancel] ++ u1 ++ [Call.cleanupQueue none] ++ u2 ++
                [Call.wgWait] ++ [Call.Delete t.tickerId none] ++
                [Call.AddTask .JOB_PROCESSING_QUEUE
                  (TickerImpl.tickerRemoved env t.tickerId) none]) = some e →
              TickerImpl.cleanup t env early late h =
                (some (.wrap "could not shutdown scheduler" e),
                  h ++ [Call.cancel] ++ u1 ++ [Call.cleanupQueue none] ++ u2 ++
                    [Call.wgWait] ++ [Call.Delete t.tickerId none] ++
                    [Call.AddTask .JOB_PROCESSING_QUEUE
                      (TickerImpl.tickerRemoved env t.tickerId) none] ++
                    [Call.Shutdown (some e)])) ∧
            (env.Shutdown (h ++ [Call.cancel] ++ u1 ++ [Call.cleanupQueue none] ++ u2 ++
                [Call.wgWait] ++ [Call.Delete t.tickerId none] ++
                [Call.AddTask .JOB_PROCESSING_QUEUE
                  (TickerImpl.tickerRemoved env t.tickerId) none]) = none →
              TickerImpl.cleanup t env early late h =
                (none, h ++ [Call.cancel] ++ u1 ++ [Call.cleanupQueue none] ++ u2 ++
                  [Call.wgWait] ++ [Call.Delete t.tickerId none] ++
                  [Call.AddTask .JOB_PROCESSING_QUEUE
                    (TickerImpl.tickerRemoved env t.tickerId) none] ++
                  [Call.Shutdown none]))))) := by
    refine ⟨?_, ?_⟩
    · intro e hq
      simp only [TickerImpl.cleanup, hu1, hq]
    · intro hq
      refine ⟨?_, ?_⟩
      · intro e hd
        simp only [TickerImpl.cleanup, hu1, hq, hu2, hd]
      · intro hd
        refine ⟨?_, ?_⟩
        · intro e ha
          simp only [TickerImpl.cleanup, hu1, hq, hu2, hd, ha]
        · intro ha
          refine ⟨?_, ?_⟩
          · intro e hs
            simp only [TickerImpl.cleanup, hu1, hq, hu2, hd, ha, hs]
          · intro hs
            simp only [TickerImpl.cleanup, hu1, hq, hu2, hd, ha, hs]
  refine ⟨hnest.1, hnest.2, ?_⟩
  cases hq : env.cleanupQueue (h ++ [Call.cancel] ++ u1) with
  | some e =>
    refine ⟨[Call.cancel] ++ u1 ++ [Call.cleanupQueue (some e)], ?_, ?_, ?_, ?_⟩
    · rw [hnest.1 e hq]; simp
    · simp [hd1]
    · simp only [enqueued_append, hq1]
      simp [enqueued]
    · rw [hnest.1 e hq]; simp
  | none =>
    cases hd : env.Delete (h ++ [Call.cancel] ++ u1 ++ [Call.cleanupQueue none] ++ u2 ++
        [Call.wgWait]) t.tickerId with
    | some e =>
      have hrun := (hnest.2 hq).1 e hd
      refine ⟨[Call.cancel] ++ u1 ++ [Call.cleanupQueue none] ++ u2 ++ [Call.wgWait] ++
        [Call.Delete t.tickerId (some e), Call.logError "could not delete ticker" e],
        ?_, ?_, ?_, ?_⟩
      · rw [hrun]; simp
      · simp [hd1, hd2]
      · simp only [enqueued_append, hq1, hq2]
        simp [enqueued]
      · rw [hrun]; simp
    | none =>
      cases ha : env.AddTask (h ++ [Call.cancel] ++ u1 ++ [Call.cleanupQueue none] ++ u2 ++
          [Call.wgWait] ++ [Call.Delete t.tickerId none]) .JOB_PROCESSING_QUEUE
          (TickerImpl.tickerRemoved env t.tickerId) with
      | some e =>
        have hrun := ((hnest.2 hq).2 hd).1 e ha
        refine ⟨[Call.cancel] ++ u1 ++ [Call.cleanupQueue none] ++ u2 ++ [Call.wgWait] ++
          [Call.Delete t.tickerId none] ++
          [Call.AddTask .JOB_PROCESSING_QUEUE (TickerImpl.tickerRemoved env t.tickerId)
            (some e), Call.logError "could not add ticker removed task" e],
          ?_, ?_, ?_, ?_⟩
        · rw [hrun]; simp
        · simp
        · simp only [enqueued_append, hq1, hq2]
          simp [enqueued]
        · rw [hrun]; simp
      | none =>
        cases hs : env.Shutdown (h ++ [Call.cancel] ++ u1 ++ [Call.cleanupQueue none] ++ u2 ++
            [Call.wgWait] ++ [Call.Delete t.tickerId none] ++
            [Call.AddTask .JOB_PROCESSING_QUEUE (TickerImpl.tickerRemoved env t.tickerId)
              none]) with
        | some e =>
          have hrun := (((hnest.2 hq).2 hd).2 ha).1 e hs
          refine ⟨[Call.cancel] ++ u1 ++ [Call.cleanupQueue none] ++ u2 ++ [Call.wgWait] ++
            [Call.Delete t.tickerId none] ++
            [Call.AddTask .JOB_PROCESSING_QUEUE (TickerImpl.tickerRemoved env t.tickerId)
              none] ++ [Call.Shutdown (some e)], ?_, ?_, ?_, ?_⟩
          · rw [hrun]; simp
          · simp
          · simp only [enqueued_append, hq1, hq2]
            simp [enqueued]
          · rw [hrun]; simp
        | none =>
          have hrun := (((hnest.2 hq).2 hd).2 ha).2 hs
          refine ⟨[Call.cancel] ++ u1 ++ [Call.cleanupQueue none] ++ u2 ++ [Call.wgWait] ++
            [Call.Delete t.tickerId none] ++
            [Call.AddTask .JOB_PROCESSING_QUEUE (TickerImpl.tickerRemoved env t.tickerId)
              none] ++ [Call.Shutdown none], ?_, ?_, ?_, ?_⟩
          · rw [hrun]; simp
          · simp
          · simp only [enqueued_append, hq1, hq2]
            simp [enqueued]
          · rw [hrun]; simp

/-- A shutdown on which every step succeeds, with one task-handling goroutine finishing
before the queue cleanup returns and one after: no error, and the steps in order. -/
theorem ticker_cleanup_all_steps_succeed :
    TickerImpl.cleanup sampleTicker okEnv
        [{ ID := "schedule-cron", Payload := [], Metadata := [] }]
        [{ ID := "cancel-step-requeue", Payload := [], Metadata := [] }] [] =
      (none,
        [Call.cancel,
          Call.handler .handleScheduleCron { ID := "schedule-cron", Payload := [], Metadata := [] }
            none,
          Call.handleTask { ID := "schedule-cron", Payload := [], Metadata := [] } none,
          Call.cleanupQueue none,
          Call.handleTask { ID := "cancel-step-requeue", Payload := [], Metadata := [] }
            (some (.msg "unknown task: cancel-step-requeue")),
          Call.logError "could not handle ticker task cancel-step-requeue"
            (.msg "unknown task: cancel-step-requeue"),
          Call.wgWait,
          Call.Delete "ticker-1" none,
          Call.AddTask .JOB_PROCESSING_QUEUE
            { ID := "ticker-removed", Payload := [("ticker_id", "ticker-1")], Metadata := [] } none,
          Call.Shutdown none]) := by
  decide

/-- Claim C7 as stated fails: when the cleanup of the queue subscription fails, the
cleanup function returns at once; the ticker record is not deleted and no
`ticker-removed` task is emitted on that shutdown. -/
theorem ticker_cleanup_queue_failure_skips_delete :
    TickerImpl.cleanup sampleTicker cleanupQueueFailsEnv [] [] [] =
      (some (.wrap "could not cleanup queue" (.msg "channel already closed")),
        [Call.cancel, Call.cleanupQueue (some (.msg "channel already closed"))]) ∧
    Call.Delete sampleTicker.tickerId none ∉
      (TickerImpl.cleanup sampleTicker cleanupQueueFailsEnv [] [] []).2 ∧
    addTaskCalls (TickerImpl.cleanup sampleTicker cleanupQueueFailsEnv [] [] []).2 = [] := by
  decide

/-- Claim C8: in a run of the cleanup function that reaches the deletion of the ticker
record and in which that deletion fails with `e`, the result is exactly `e`, the
cleanup of the queue subscription has been performed before (and succeeded), and no
`AddTask` is attempted, so no `ticker-removed` task is emitted. -/
theorem ticker_cleanup_delete_failure (t : TickerImpl.Ticker) (env : Env)
    (early late : List Task) (h : History) (e : GoError)
    (hq : env.cleanupQueue (early.foldl (TickerImpl.taskUnit env) (h ++ [Call.cancel])) = none)
    (hd : env.Delete
      (late.foldl (TickerImpl.taskUnit env)
        (early.foldl (TickerImpl.taskUnit env) (h ++ [Call.cancel]) ++ [Call.cleanupQueue none]) ++
        [Call.wgWait]) t.tickerId = some e) :
    (TickerImpl.cleanup t env early late h).1 = some e ∧
    (∃ units1 units2 : List Call,
      (∀ c ∈ units1 ++ units2, c.isUnitEvent = true) ∧
      (TickerImpl.cleanup t env early late h).2 =
        h ++ (Call.cancel :: units1) ++ (Call.cleanupQueue none :: units2) ++
          [Call.wgWait, Call.Delete t.tickerId (some e),
            Call.logError "could not delete ticker" e]) ∧
    addTaskCalls (TickerImpl.cleanup t env early late h).2 = addTaskCalls h ∧
    enqueued (TickerImpl.cleanup t env early late h).2 = enqueued h := by
  obtain ⟨u1, hu1, -, he1⟩ := TickerImpl.units_spec env early (h ++ [Call.cancel])
  obtain ⟨u2, hu2, -, he2⟩ :=
    TickerImpl.units_spec env late (h ++ [Call.cancel] ++ u1 ++ [Call.cleanupQueue none])
  have hunits : ∀ c ∈ u1 ++ u2, c.isUnitEvent = true := by
    intro c hc
    rcases List.mem_append.1 hc with hc | hc
    · exact he1 c hc
    · exact he2 c hc
  have hrun : TickerImpl.cleanup t env early late h =
      (some e, h ++ (Call.cancel :: u1) ++ (Call.cleanupQueue none :: u2) ++
        [Call.wgWait, Call.Delete t.tickerId (some e),
          Call.logError "could not delete ticker" e]) := by
    simp only [TickerImpl.cleanup, hq, hd]
    simp only [hu1, hu2]
    simp
  have hadd1 := addTaskCalls_units u1 he1
  have hadd2 := addTaskCalls_units u2 he2
  have henq1 := enqueued_units u1 he1
  have henq2 := enqueued_units u2 he2
  refine ⟨by rw [hrun], ⟨u1, u2, hunits, by rw [hrun]⟩, ?_, ?_⟩
  · rw [hrun]
    simp only [addTaskCalls, List.filterMap_append, List.filterMap_cons] at hadd1 hadd2 ⊢
    simp [hadd1, hadd2]
  · rw [hrun]
    simp only [enqueued, List.filterMap_append, List.filterMap_cons] at henq1 henq2 ⊢
    simp [henq1, henq2]

theorem ticker_cleanup_delete_failure_witness :
    (TickerImpl.cleanup sampleTicker deleteFailsEnv [] [] []).1 = some (.msg "record not found") ∧
    (∃ units1 units2 : List Call,
      (∀ c ∈ units1 ++ units2, c.isUnitEvent = true) ∧
      (TickerImpl.cleanup sampleTicker deleteFailsEnv [] [] []).2 =
        [] ++ (Call.cancel :: units1) ++ (Call.cleanupQueue none :: units2) ++
          [Call.wgWait, Call.Delete sampleTicker.tickerId (some (.msg "record not found")),
            Call.logError "could not delete ticker" (.msg "record not found")]) ∧
    addTaskCalls (TickerImpl.cleanup sampleTicker deleteFailsEnv [] [] []).2 = addTaskCalls [] ∧
    enqueued (TickerImpl.cleanup sampleTicker deleteFailsEnv [] [] []).2 = enqueued [] :=
  ticker_cleanup_delete_failure sampleTicker deleteFailsEnv [] [] [] (.msg "record not found")
    rfl rfl

/-! ## The consumption loop -/

theorem perm_cons_eraseIdx {α : Type} (l : List α) :
    ∀ (k : Nat) (a : α), l[k]? = some a → l.Perm (a :: l.eraseIdx k) := by
  induction l with
  | nil => intro k a hk; simp at hk
  | cons b rest ih =>
    intro k a hk
    cases k with
    | zero =>
      simp at hk
      subst hk
      simp
    | succ k =>
      simp at hk
      have hp := ih k a hk
      simp only [List.eraseIdx_cons_succ]
      exact (List.Perm.cons b hp).trans (List.Perm.swap a b _)

theorem Consumer.drain_handled (unit : History → Task → History)
    (hunit : ∀ h task, handledTasks (unit h task) = handledTasks h ++ [task])
    (l : List Task) :
    ∀ h : History, handledTasks (l.foldl unit h) = handledTasks h ++ l := by
  induction l with
  | nil => intro h; simp
  | cons task rest ih =>
    intro h
    simp only [List.foldl_cons]
    rw [ih, hunit]
    simp

theorem Consumer.step_perm (unit : History → Task → History)
    (hunit : ∀ h task, handledTasks (unit h task) = handledTasks h ++ [task])
    (s : Consumer) (tick : Tick) :
    (handledTasks (Consumer.step unit s tick).trace ++
        ((Consumer.step unit s tick).inflight ++ (Consumer.step unit s tick).taskChan)).Perm
      (handledTasks s.trace ++ (s.inflight ++ s.taskChan)) := by
  cases tick with
  | recv =>
    cases hc : s.taskChan with
    | nil => simp [Consumer.step, hc]
    | cons task rest => simp [Consumer.step, hc]
  | finish k =>
    cases hk : s.inflight[k]? with
    | none => simp [Consumer.step, hk]
    | some task =>
      simp only [Consumer.step, hk, hunit]
      have hp := perm_cons_eraseIdx s.inflight k task hk
      have h1 : (handledTasks s.trace ++ [task] ++ (s.inflight.eraseIdx k ++ s.taskChan)).Perm
          (handledTasks s.trace ++ ((task :: s.inflight.eraseIdx k) ++ s.taskChan)) := by
        simp
      exact h1.trans (List.Perm.append_left _ (List.Perm.append_right _ hp.symm))

theorem Consumer.handled_perm (unit : History → Task → History)
    (hunit : ∀ h task, handledTasks (unit h task) = handledTasks h ++ [task])
    (sched : List Tick) :
    ∀ s : Consumer,
      (handledTasks (Consumer.drain unit (Consumer.run unit sched s))).Perm
        (handledTasks s.trace ++ (s.inflight ++ s.taskChan)) := by
  induction sched with
  | nil =>
    intro s
    simp only [Consumer.run, List.foldl_nil, Consumer.drain]
    rw [Consumer.drain_handled unit hunit]
  | cons tick rest ih =>
    intro s
    have h1 := ih (Consumer.step unit s tick)
    simp only [Consumer.run, List.foldl_cons] at h1 ⊢
    exact h1.trans (Consumer.step_perm unit hunit s tick)

theorem handledTasks_append (a b : List Call) :
    handledTasks (a ++ b) = handledTasks a ++ handledTasks b := by
  simp [handledTasks, List.filterMap_append]

theorem TickerImpl.tickerUnit_handled (env : Env) (h : History) (task : Task) :
    handledTasks (TickerImpl.taskUnit env h task) = handledTasks h ++ [task] := by
  obtain ⟨new, hnew, ht, -⟩ := TickerImpl.taskUnit_spec env h task
  rw [hnew, handledTasks_append, ht]

/-! ## Events controller: the fan-out of `processEvent` -/

theorem set_of_getElem? {α : Type} (l : List α) :
    ∀ (i : Nat) (b : α), l[i]? = some b →
      ∃ pre post, l = pre ++ b :: post ∧ ∀ c, l.set i c = pre ++ c :: post := by
  induction l with
  | nil => intro i b hi; simp at hi
  | cons a rest ih =>
    intro i b hi
    cases i with
    | zero =>
      simp at hi
      subst hi
      exact ⟨[], rest, rfl, fun _ => rfl⟩
    | succ i =>
      simp at hi
      obtain ⟨pre, post, h1, h2⟩ := ih i b hi
      exact ⟨a :: pre, post, by simp [h1], fun c => by simp [h2 c]⟩

namespace EventsControllerImpl

theorem filterMap_cons_toList {α β : Type} (f : α → Option β) (b : α) (l : List α) :
    (b :: l).filterMap f = (f b).toList ++ l.filterMap f := by
  cases hfb : f b <;> simp [List.filterMap_cons, hfb]

theorem perm_step {α : Type} [DecidableEq α] (C P1 P2 R cs old new rs : List α)
    (hold : (C ++ (P1 ++ (old ++ P2))).Perm R) (hbal : (cs ++ new).Perm (rs ++ old)) :
    ((C ++ cs) ++ (P1 ++ (new ++ P2))).Perm (R ++ rs) := by
  rw [List.perm_iff_count] at hold hbal ⊢
  intro a
  have h1 := hold a
  have h2 := hbal a
  simp only [List.count_append] at h1 h2 ⊢
  omega

theorem Group.Inv.step (env : Env) (event : EventModel) (tenantId : String)
    (workflows : List WorkflowModel) (g : Group) (pre post : List Branch) (b b2 : Branch)
    (cs : List Call) (err2 : Option GoError)
    (hdec : g.branches = pre ++ b :: post)
    (hinv : Group.Inv env event tenantId workflows g)
    (balA : (derivedFor cs ++ (b2.pendingWorkflow.toList).map (Prod.mk event)).Perm
      ([] ++ (b.pendingWorkflow.toList).map (Prod.mk event)))
    (balB : (createCalls cs ++ (b2.heldOpts.toList).map (Prod.mk tenantId)).Perm
      ((derivedOpts cs).map (Prod.mk tenantId) ++ (b.heldOpts.toList).map (Prod.mk tenantId)))
    (balC : (addTaskCalls cs ++ (b2.heldRun.toList).map
        (fun run => (QueueType.WORKFLOW_PROCESSING_QUEUE, env.WorkflowRunQueuedToTask run))).Perm
      ((createdRuns cs).map
        (fun run => (QueueType.WORKFLOW_PROCESSING_QUEUE, env.WorkflowRunQueuedToTask run)) ++
        (b.heldRun.toList).map
        (fun run => (QueueType.WORKFLOW_PROCESSING_QUEUE, env.WorkflowRunQueuedToTask run))))
    (d1 : err2 = none → g.err = none)
    (d2 : err2 = none → ∀ e, b = .returning (some e) → b2 = .returning (some e))
    (d3 : ∀ e ∈ branchErrors cs, b2 = .returning (some e))
    (e1 : ∀ e, err2 = some e → g.err = some e ∨ b = .returning (some e))
    (e2 : ∀ e, b2 = .returning (some e) → e ∈ branchErrors cs ∨ b = .returning (some e))
    (hk : ∀ c ∈ cs, c.isFanOut = true) :
    Group.Inv env event tenantId workflows
      { branches := pre ++ b2 :: post, err := err2, calls := g.calls ++ cs } := by
  obtain ⟨hA, hB, hC, hD, hE, hF⟩ := hinv
  rw [hdec] at hA hB hC hD hE
  refine ⟨?_, ?_, ?_, ?_, ?_, ?_⟩
  · have := perm_step _ _ _ _ _ _ _ _ (by simpa [List.filterMap_append, filterMap_cons_toList] using hA) balA
    simpa [derivedFor, List.filterMap_append, filterMap_cons_toList] using this
  · have := perm_step _ _ _ _ _ _ _ _ (by simpa [List.filterMap_append, filterMap_cons_toList] using hB) balB
    simpa [derivedOpts, createCalls, List.filterMap_append, filterMap_cons_toList] using this
  · have := perm_step _ _ _ _ _ _ _ _ (by simpa [List.filterMap_append, filterMap_cons_toList] using hC) balC
    simpa [createdRuns, addTaskCalls, List.filterMap_append, filterMap_cons_toList] using this
  · intro herr e he
    simp only [branchErrors, List.filterMap_append, List.mem_append] at he
    rcases he with he | he
    · have hmem := hD (d1 herr) e he
      rcases List.mem_append.1 hmem with hm | hm
      · exact List.mem_append_left _ hm
      · rcases List.mem_cons.1 hm with hm | hm
        · rw [d2 herr e hm.symm]; simp
        · exact List.mem_append_right _ (List.mem_cons_of_mem _ hm)
    · rw [d3 e he]; simp
  · intro e he
    simp only [branchErrors, List.filterMap_append, List.mem_append]
    rcases he with he | he
    · rcases e1 e he with h1 | h1
      · exact Or.inl (hE e (Or.inl h1))
      · exact Or.inl (hE e (Or.inr (by simp [h1])))
    · rcases List.mem_append.1 he with hm | hm
      · exact Or.inl (hE e (Or.inr (List.mem_append_left _ hm)))
      · rcases List.mem_cons.1 hm with hm | hm
        · rcases e2 e hm.symm with h1 | h1
          · exact Or.inr h1
          · exact Or.inl (hE e (Or.inr (by simp [h1])))
        · exact Or.inl (hE e (Or.inr (List.mem_append_right _ (List.mem_cons_of_mem _ hm))))
  · intro c hc
    rcases List.mem_append.1 hc with hc | hc
    · exact hF c hc
    · exact hk c hc

theorem Group.stepAt_inv (env : Env) (event : EventModel) (tenantId : String)
    (workflows : List WorkflowModel) (h : History) (g : Group) (i : Nat)
    (hinv : Group.Inv env event tenantId workflows g) :
    Group.Inv env event tenantId workflows (Group.stepAt env event tenantId h g i) := by
  cases hb : g.branches[i]? with
  | none => simpa [Group.stepAt, hb] using hinv
  | some b =>
    obtain ⟨pre, post, hdec, hset⟩ := set_of_getElem? g.branches i b hb
    cases b with
    | start w =>
      simp only [Group.stepAt, hb, hset]
      cases hopts : env.GetCreateWorkflowRunOptsFromEvent event w with
      | error e =>
        exact Group.Inv.step env event tenantId workflows g pre post _ _
          [Call.GetCreateWorkflowRunOptsFromEvent event w none (some e)] g.err hdec hinv
          (by simp [derivedFor, Branch.pendingWorkflow])
          (by simp [createCalls, derivedOpts, Branch.heldOpts])
          (by simp [addTaskCalls, createdRuns, Branch.heldRun])
          (fun h => h) (by simp) (by simp [branchErrors, branchError])
          (fun e h => Or.inl h) (by simp [branchErrors, branchError])
          (by simp [Call.isFanOut])
      | ok opts =>
        exact Group.Inv.step env event tenantId workflows g pre post _ _
          [Call.GetCreateWorkflowRunOptsFromEvent event w (some opts) none] g.err hdec hinv
          (by simp [derivedFor, Branch.pendingWorkflow])
          (by simp [createCalls, derivedOpts, Branch.heldOpts])
          (by simp [addTaskCalls, createdRuns, Branch.heldRun])
          (fun h => h) (by simp) (by simp [branchErrors, branchError])
          (fun e h => Or.inl h) (by simp [branchErrors, branchError])
          (by simp [Call.isFanOut])
    | haveOpts opts =>
      simp only [Group.stepAt, hb, hset]
      cases hrun : env.CreateNewWorkflowRun (h ++ g.calls) tenantId opts with
      | error e =>
        exact Group.Inv.step env event tenantId workflows g pre post _ _
          [Call.CreateNewWorkflowRun tenantId opts none (some e)] g.err hdec hinv
          (by simp [derivedFor, Branch.pendingWorkflow])
          (by simp [createCalls, derivedOpts, Branch.heldOpts])
          (by simp [addTaskCalls, createdRuns, Branch.heldRun])
          (fun h => h) (by simp) (by simp [branchErrors, branchError])
          (fun e h => Or.inl h) (by simp [branchErrors, branchError])
          (by simp [Call.isFanOut])
      | ok run =>
        exact Group.Inv.step env event tenantId workflows g pre post _ _
          [Call.CreateNewWorkflowRun tenantId opts (some run) none] g.err hdec hinv
          (by simp [derivedFor, Branch.pendingWorkflow])
          (by simp [createCalls, derivedOpts, Branch.heldOpts])
          (by simp [addTaskCalls, createdRuns, Branch.heldRun])
          (fun h => h) (by simp) (by simp [branchErrors, branchError])
          (fun e h => Or.inl h) (by simp [branchErrors, branchError])
          (by simp [Call.isFanOut])
    | haveRun run =>
      simp only [Group.stepAt, hb, hset]
      cases hadd : env.AddTask (h ++ g.calls) .WORKFLOW_PROCESSING_QUEUE
          (env.WorkflowRunQueuedToTask run) with
      | none =>
        exact Group.Inv.step env event tenantId workflows g pre post _ _
          [Call.AddTask .WORKFLOW_PROCESSING_QUEUE (env.WorkflowRunQueuedToTask run) none]
          g.err hdec hinv
          (by simp [derivedFor, Branch.pendingWorkflow])
          (by simp [createCalls, derivedOpts, Branch.heldOpts])
          (by simp [addTaskCalls, createdRuns, Branch.heldRun])
          (fun h => h) (by simp) (by simp [branchErrors, branchError])
          (fun e h => Or.inl h) (by simp [branchErrors, branchError])
          (by simp [Call.isFanOut])
      | some e =>
        exact Group.Inv.step env event tenantId workflows g pre post _ _
          [Call.AddTask .WORKFLOW_PROCESSING_QUEUE (env.WorkflowRunQueuedToTask run) (some e)]
          g.err hdec hinv
          (by simp [derivedFor, Branch.pendingWorkflow])
          (by simp [createCalls, derivedOpts, Branch.heldOpts])
          (by simp [addTaskCalls, createdRuns, Branch.heldRun])
          (fun h => h) (by simp) (by simp [branchErrors, branchError])
          (fun e h => Or.inl h) (by simp [branchErrors, branchError])
          (by simp [Call.isFanOut])
    | returning err =>
      simp only [Group.stepAt, hb, hset]
      have hstep := Group.Inv.step env event tenantId workflows g pre post (.returning err) .done
          [] (match g.err with
            | some first => some first
            | none => err) hdec hinv
          (by simp [derivedFor, Branch.pendingWorkflow])
          (by simp [createCalls, derivedOpts, Branch.heldOpts])
          (by simp [addTaskCalls, createdRuns, Branch.heldRun])
          (by cases g.err <;> simp)
          (by cases g.err <;> simp_all)
          (by simp [branchErrors])
          (by cases g.err <;> simp)
          (by simp)
          (by simp)
      simpa using hstep
    | done =>
      simpa [Group.stepAt, hb] using hinv

theorem Group.stepAt_branches (env : Env) (event : EventModel) (tenantId : String)
    (h : History) (g : Group) (i j : Nat) (b : Branch) (hj : g.branches[j]? = some b) :
    ∃ b2, (Group.stepAt env event tenantId h g i).branches[j]? = some b2 ∧
      b2.stepsLeft ≤ b.stepsLeft ∧ (j = i → b2.stepsLeft ≤ b.stepsLeft - 1) := by
  have hlt : j < g.branches.length := by
    by_contra hge
    rw [List.getElem?_eq_none (by omega)] at hj
    exact absurd hj (by simp)
  by_cases hji : j = i
  · subst hji
    simp only [Group.stepAt, hj]
    cases b with
    | start w =>
      rcases hx : env.GetCreateWorkflowRunOptsFromEvent event w with e | o <;>
        simp [hx, List.getElem?_set, hlt, Branch.stepsLeft]
    | haveOpts opts =>
      rcases hx : env.CreateNewWorkflowRun (h ++ g.calls) tenantId opts with e | o <;>
        simp [hx, List.getElem?_set, hlt, Branch.stepsLeft]
    | haveRun run => simp [List.getElem?_set, hlt, Branch.stepsLeft]
    | returning err => simp [List.getElem?_set, hlt, Branch.stepsLeft]
    | done => simp [hj, Branch.stepsLeft]
  · refine ⟨b, ?_, le_refl _, fun hc => absurd hc hji⟩
    simp only [Group.stepAt]
    cases hb : g.branches[i]? with
    | none => simpa using hj
    | some bi =>
      have hne : ¬ i = j := fun hc => hji hc.symm
      cases bi with
      | start w =>
        rcases hx : env.GetCreateWorkflowRunOptsFromEvent event w with e | o <;>
          simp [hx, List.getElem?_set, hne, hj]
      | haveOpts opts =>
        rcases hx : env.CreateNewWorkflowRun (h ++ g.calls) tenantId opts with e | o <;>
          simp [hx, List.getElem?_set, hne, hj]
      | haveRun run => simp [List.getElem?_set, hne, hj]
      | returning err => simp [List.getElem?_set, hne, hj]
      | done => simpa using hj

theorem Group.stepAt_length (env : Env) (event : EventModel) (tenantId : String)
    (h : History) (g : Group) (i : Nat) :
    (Group.stepAt env event tenantId h g i).branches.length = g.branches.length := by
  simp only [Group.stepAt]
  cases hb : g.branches[i]? with
  | none => rfl
  | some bi =>
    cases bi with
    | start w => rcases hx : env.GetCreateWorkflowRunOptsFromEvent event w with e | o <;> simp [hx]
    | haveOpts opts =>
      rcases hx : env.CreateNewWorkflowRun (h ++ g.calls) tenantId opts with e | o <;> simp [hx]
    | haveRun run => simp
    | returning err => simp
    | done => rfl

theorem Branch.stepsLeft_le (b : Branch) : b.stepsLeft ≤ 4 := by
  cases b <;> simp [Branch.stepsLeft]

theorem Branch.done_of_stepsLeft (b : Branch) (hb : b.stepsLeft = 0) : b = .done := by
  cases b <;> simp [Branch.stepsLeft] at hb ⊢

theorem Group.foldl_stepAt_inv (env : Env) (event : EventModel) (tenantId : String)
    (workflows : List WorkflowModel) (h : History) (l : List Nat) :
    ∀ g : Group, Group.Inv env event tenantId workflows g →
      Group.Inv env event tenantId workflows (l.foldl (Group.stepAt env event tenantId h) g) := by
  induction l with
  | nil => intro g hg; exact hg
  | cons i rest ih =>
    intro g hg
    exact ih _ (Group.stepAt_inv env event tenantId workflows h g i hg)

theorem Group.foldl_stepAt_length (env : Env) (event : EventModel) (tenantId : String)
    (h : History) (l : List Nat) :
    ∀ g : Group, (l.foldl (Group.stepAt env event tenantId h) g).branches.length =
      g.branches.length := by
  induction l with
  | nil => intro g; rfl
  | cons i rest ih =>
    intro g
    simp only [List.foldl_cons]
    rw [ih, Group.stepAt_length]

theorem Group.four_steps (env : Env) (event : EventModel) (tenantId : String)
    (h : History) (g : Group) (i j : Nat) (b : Branch) (hj : g.branches[j]? = some b) :
    ∃ b2, (Group.stepAt env event tenantId h
        (Group.stepAt env event tenantId h
          (Group.stepAt env event tenantId h
            (Group.stepAt env event tenantId h g i) i) i) i).branches[j]? = some b2 ∧
      b2.stepsLeft ≤ b.stepsLeft ∧ (j = i → b2.stepsLeft = 0) := by
  obtain ⟨b1, h1, m1, s1⟩ := Group.stepAt_branches env event tenantId h g i j b hj
  obtain ⟨b2, h2, m2, s2⟩ := Group.stepAt_branches env event tenantId h _ i j b1 h1
  obtain ⟨b3, h3, m3, s3⟩ := Group.stepAt_branches env event tenantId h _ i j b2 h2
  obtain ⟨b4, h4, m4, s4⟩ := Group.stepAt_branches env event tenantId h _ i j b3 h3
  refine ⟨b4, h4, by omega, ?_⟩
  intro hji
  have := s1 hji
  have := s2 hji
  have := s3 hji
  have := s4 hji
  have := Branch.stepsLeft_le b
  omega

theorem Group.wait_inv (env : Env) (event : EventModel) (tenantId : String)
    (workflows : List WorkflowModel) (h : History) (l : List Nat) :
    ∀ g : Group, Group.Inv env event tenantId workflows g →
      Group.Inv env event tenantId workflows
        (l.foldl
          (fun g i =>
            Group.stepAt env event tenantId h
              (Group.stepAt env event tenantId h
                (Group.stepAt env event tenantId h
                  (Group.stepAt env event tenantId h g i) i) i) i) g) := by
  induction l with
  | nil => intro g hg; exact hg
  | cons i rest ih =>
    intro g hg
    exact ih _ (Group.stepAt_inv _ _ _ _ _ _ _ (Group.stepAt_inv _ _ _ _ _ _ _
      (Group.stepAt_inv _ _ _ _ _ _ _ (Group.stepAt_inv _ _ _ _ _ _ _ hg))))

theorem Group.wait_mono (env : Env) (event : EventModel) (tenantId : String)
    (h : History) (l : List Nat) :
    ∀ (g : Group) (j : Nat) (b : Branch), g.branches[j]? = some b →
      ∃ b2, (l.foldl
          (fun g i =>
            Group.stepAt env event tenantId h
              (Group.stepAt env event tenantId h
                (Group.stepAt env event tenantId h
                  (Group.stepAt env event tenantId h g i) i) i) i) g).branches[j]? = some b2 ∧
        b2.stepsLeft ≤ b.stepsLeft ∧ (j ∈ l → b2.stepsLeft = 0) := by
  induction l with
  | nil => intro g j b hj; exact ⟨b, hj, le_refl _, by simp⟩
  | cons i rest ih =>
    intro g j b hj
    obtain ⟨b1, h1, m1, s1⟩ := Group.four_steps env event tenantId h g i j b hj
    obtain ⟨b2, h2, m2, s2⟩ := ih _ j b1 h1
    refine ⟨b2, h2, by omega, ?_⟩
    intro hmem
    rcases List.mem_cons.1 hmem with hji | hrest
    · have := s1 hji
      omega
    · exact s2 hrest

theorem Group.Wait_done (env : Env) (event : EventModel) (tenantId : String)
    (h : History) (g : Group) :
    ∀ b ∈ (Group.Wait env event tenantId h g).branches, b = .done := by
  intro b hb
  obtain ⟨j, hj⟩ := List.mem_iff_getElem?.1 hb
  have hlen : ∀ (l : List Nat) (g : Group), (l.foldl
      (fun g i =>
        Group.stepAt env event tenantId h
          (Group.stepAt env event tenantId h
            (Group.stepAt env event tenantId h
              (Group.stepAt env event tenantId h g i) i) i) i) g).branches.length =
        g.branches.length := by
    intro l
    induction l with
    | nil => intro g; rfl
    | cons i rest ih =>
      intro g
      simp only [List.foldl_cons]
      rw [ih]
      simp only [Group.stepAt_length]
  have hlt : j < g.branches.length := by
    have h1 : j < (Group.Wait env event tenantId h g).branches.length := by
      by_contra hge
      rw [List.getElem?_eq_none (by omega)] at hj
      exact absurd hj (by simp)
    simpa [Group.Wait, hlen] using h1
  obtain ⟨b0, hb0⟩ : ∃ b0, g.branches[j]? = some b0 :=
    ⟨g.branches[j], List.getElem?_eq_getElem hlt⟩
  obtain ⟨b2, h2, -, s2⟩ :=
    Group.wait_mono env event tenantId h (List.range g.branches.length) g j b0 hb0
  have hb2 : b2 = b := by
    have : some b2 = some b := by rw [← h2, ← hj]; rfl
    exact Option.some.inj this
  subst hb2
  exact Branch.done_of_stepsLeft _ (s2 (List.mem_range.2 hlt))

theorem filterMap_eq_nil_of_done {β : Type} (f : Branch → Option β) (hf : f .done = none)
    (l : List Branch) (hl : ∀ b ∈ l, b = .done) : l.filterMap f = [] := by
  induction l with
  | nil => rfl
  | cons b rest ih =>
    have hb := hl b (List.mem_cons_self b rest)
    subst hb
    simp [List.filterMap_cons, hf, ih (fun c hc => hl c (List.mem_cons_of_mem _ hc))]

/-- What every run of the fan-out of `processEvent` satisfies, under every schedule and
whatever the collaborators answer. -/
theorem fanOut_spec (env : Env) (event : EventModel) (workflows : List WorkflowModel)
    (sched : List Nat) (h : History) :
    (derivedFor (fanOut env event workflows sched h).2).Perm (workflows.map (Prod.mk event)) ∧
    (createCalls (fanOut env event workflows sched h).2).Perm
      ((derivedOpts (fanOut env event workflows sched h).2).map (Prod.mk event.TenantID)) ∧
    (addTaskCalls (fanOut env event workflows sched h).2).Perm
      ((createdRuns (fanOut env event workflows sched h).2).map
        (fun run => (QueueType.WORKFLOW_PROCESSING_QUEUE, env.WorkflowRunQueuedToTask run))) ∧
    ((fanOut env event workflows sched h).1 = none →
      branchErrors (fanOut env event workflows sched h).2 = []) ∧
    (∀ e, (fanOut env event workflows sched h).1 = some e →
      e ∈ branchErrors (fanOut env event workflows sched h).2) ∧
    (∀ c ∈ (fanOut env event workflows sched h).2, c.isFanOut = true) := by
  have h0 : Group.Inv env event event.TenantID workflows
      { branches := workflows.map Branch.start, err := none, calls := [] } := by
    refine ⟨?_, ?_, ?_, ?_, ?_, ?_⟩
    · simp [derivedFor, List.filterMap_map, Function.comp_def, Branch.pendingWorkflow]
    · simp [createCalls, derivedOpts, List.filterMap_map, Function.comp_def, Branch.heldOpts]
    · simp [addTaskCalls, createdRuns, List.filterMap_map, Function.comp_def, Branch.heldRun]
    · simp [branchErrors]
    · simp
    · simp
  have h1 := Group.foldl_stepAt_inv env event event.TenantID workflows h sched _ h0
  have h2 := Group.wait_inv env event event.TenantID workflows h
    (List.range (sched.foldl (Group.stepAt env event event.TenantID h)
      { branches := workflows.map Branch.start, err := none, calls := [] }).branches.length) _ h1
  have hdone := Group.Wait_done env event event.TenantID h
    (sched.foldl (Group.stepAt env event event.TenantID h)
      { branches := workflows.map Branch.start, err := none, calls := [] })
  obtain ⟨hA, hB, hC, hD, hE, hF⟩ := h2
  simp only [fanOut]
  simp only [Group.Wait] at hdone ⊢
  rw [filterMap_eq_nil_of_done _ rfl _ hdone] at hA hB hC
  refine ⟨by simpa using hA, by simpa using hB, by simpa using hC, ?_, ?_, hF⟩
  · intro herr
    apply List.eq_nil_iff_forall_not_mem.2
    intro e he
    have := hdone _ (hD herr e he)
    simp at this
  · intro e he
    exact hE e (Or.inl he)

theorem calls_all_ok (new : List Call) (hk : ∀ c ∈ new, c.isFanOut = true)
    (hok : ∀ c ∈ new, c.err = none) :
    (derivedOpts new).length = (derivedFor new).length ∧
    (createdRuns new).length = (createCalls new).length ∧
    enqueued new = addTaskCalls new ∧
    branchErrors new = [] := by
  induction new with
  | nil => simp [derivedOpts, derivedFor, createdRuns, createCalls, enqueued, addTaskCalls,
      branchErrors]
  | cons c rest ih =>
    have hc := hk c (List.mem_cons_self c rest)
    have hcok := hok c (List.mem_cons_self c rest)
    obtain ⟨i1, i2, i3, i4⟩ := ih (fun d hd => hk d (List.mem_cons_of_mem c hd))
      (fun d hd => hok d (List.mem_cons_of_mem c hd))
    clear hk hok ih
    simp only [derivedOpts, derivedFor, createdRuns, createCalls, enqueued, addTaskCalls,
      branchErrors] at i1 i2 i3 i4 ⊢
    cases c with
    | GetCreateWorkflowRunOptsFromEvent ev w opts err =>
      simp only [Call.err] at hcok
      subst hcok
      cases opts with
      | none => simp [Call.isFanOut] at hc
      | some o => simp [List.filterMap_cons, branchError, i1, i2, i3, i4]
    | CreateNewWorkflowRun tid o run err =>
      simp only [Call.err] at hcok
      subst hcok
      cases run with
      | none => simp [Call.isFanOut] at hc
      | some r => simp [List.filterMap_cons, branchError, i1, i2, i3, i4]
    | AddTask q t err =>
      simp only [Call.err] at hcok
      subst hcok
      simp [List.filterMap_cons, branchError, i1, i2, i3, i4]
    | _ => simp [Call.isFanOut] at hc

theorem calls_length (new : List Call) (hk : ∀ c ∈ new, c.isFanOut = true) :
    new.length =
      (derivedFor new).length + (createCalls new).length + (addTaskCalls new).length := by
  induction new with
  | nil => simp [derivedFor, createCalls, addTaskCalls]
  | cons c rest ih =>
    have hc := hk c (List.mem_cons_self c rest)
    have i1 := ih (fun d hd => hk d (List.mem_cons_of_mem c hd))
    clear hk ih
    simp only [derivedFor, createCalls, addTaskCalls] at i1 ⊢
    cases c with
    | GetCreateWorkflowRunOptsFromEvent ev w opts err =>
      simp [List.filterMap_cons, i1]; omega
    | CreateNewWorkflowRun tid o run err =>
      simp [List.filterMap_cons, i1]; omega
    | AddTask q t err =>
      simp [List.filterMap_cons, i1]; omega
    | _ => simp [Call.isFanOut] at hc

theorem branchError_of_failure (c : Call) (hc : c.isFanOut = true) (e : GoError)
    (he : c.err = some e) : ∃ e2, branchError c = some e2 := by
  cases c with
  | GetCreateWorkflowRunOptsFromEvent ev w opts err =>
    simp only [Call.err] at he; subst he; exact ⟨_, rfl⟩
  | CreateNewWorkflowRun tid o run err =>
    simp only [Call.err] at he; subst he; exact ⟨_, rfl⟩
  | AddTask q t err =>
    simp only [Call.err] at he; subst he; exact ⟨_, rfl⟩
  | _ => simp [Call.isFanOut] at hc

/-- Claim C2: when `ListWorkflowsForEvent` returns `W` workflows and every call of the
fan-out succeeds (option derivation, run creation, enqueue), `processEvent` returns no
error under every interleaving of the goroutines; options were derived once for each
workflow, `CreateNewWorkflowRun` was called exactly `W` times, each time with the tenant
id of the event, `W` runs were created and exactly `W` tasks were added to the
workflow-processing queue, one `WorkflowRunQueuedToTask` task for each created run; the
fan-out makes `3 * W` calls in all, so none when `W = 0`. -/
theorem processEvent_fan_out_success (env : Env) (sched : List Nat) (h : History)
    (event : EventModel) (workflows : List WorkflowModel)
    (hlist : env.ListWorkflowsForEvent h event.TenantID event.Key = .ok workflows)
    (hok : ∀ c ∈ (fanOut env event workflows sched
      (h ++ [Call.ListWorkflowsForEvent event.TenantID event.Key workflows none])).2,
      c.err = none) :
    ∃ new : List Call,
      processEvent env sched h event =
        (none, h ++ [Call.ListWorkflowsForEvent event.TenantID event.Key workflows none] ++ new) ∧
      new.length = 3 * workflows.length ∧
      (derivedFor new).Perm (workflows.map (Prod.mk event)) ∧
      (createCalls new).length = workflows.length ∧
      (createCalls new).Perm ((derivedOpts new).map (Prod.mk event.TenantID)) ∧
      (∀ p ∈ createCalls new, p.1 = event.TenantID) ∧
      (createdRuns new).length = workflows.length ∧
      (enqueued new).length = workflows.length ∧
      addTaskCalls new = enqueued new ∧
      (enqueued new).Perm
        ((createdRuns new).map
          (fun run => (QueueType.WORKFLOW_PROCESSING_QUEUE, env.WorkflowRunQueuedToTask run))) := by
  obtain ⟨hA, hB, hC, hD, hE, hF⟩ := fanOut_spec env event workflows sched
    (h ++ [Call.ListWorkflowsForEvent event.TenantID event.Key workflows none])
  obtain ⟨k1, k2, k3, k4⟩ := calls_all_ok _ hF hok
  have hlen := calls_length _ hF
  have hres : (fanOut env event workflows sched
      (h ++ [Call.ListWorkflowsForEvent event.TenantID event.Key workflows none])).1 = none := by
    cases hr : (fanOut env event workflows sched
      (h ++ [Call.ListWorkflowsForEvent event.TenantID event.Key workflows none])).1 with
    | none => rfl
    | some e =>
      have := hE e hr
      rw [k4] at this
      simp at this
  have lA := hA.length_eq
  have lB := hB.length_eq
  have lC := hC.length_eq
  simp only [List.length_map] at lA lB lC
  refine ⟨_, ?_, ?_, hA, ?_, hB, ?_, ?_, ?_, k3.symm, ?_⟩
  · simp only [processEvent, hlist, hres]
  · omega
  · omega
  · intro p hp
    have := hB.subset hp
    simp only [List.mem_map] at this
    obtain ⟨o, -, ho⟩ := this
    rw [← ho]
  · omega
  · rw [k3]; omega
  · rw [k3]; exact hC

theorem processEvent_fan_out_success_witness :
    ∃ new : List Call,
      processEvent okEnv [1, 0, 1] [] sampleEvent =
        (none, [] ++ [Call.ListWorkflowsForEvent sampleEvent.TenantID sampleEvent.Key
          [{ ID := "A" }, { ID := "B" }] none] ++ new) ∧
      new.length = 3 * [({ ID := "A" } : WorkflowModel), { ID := "B" }].length ∧
      (derivedFor new).Perm ([({ ID := "A" } : WorkflowModel), { ID := "B" }].map
        (Prod.mk sampleEvent)) ∧
      (createCalls new).length = [({ ID := "A" } : WorkflowModel), { ID := "B" }].length ∧
      (createCalls new).Perm ((derivedOpts new).map (Prod.mk sampleEvent.TenantID)) ∧
      (∀ p ∈ createCalls new, p.1 = sampleEvent.TenantID) ∧
      (createdRuns new).length = [({ ID := "A" } : WorkflowModel), { ID := "B" }].length ∧
      (enqueued new).length = [({ ID := "A" } : WorkflowModel), { ID := "B" }].length ∧
      addTaskCalls new = enqueued new ∧
      (enqueued new).Perm
        ((createdRuns new).map
          (fun run => (QueueType.WORKFLOW_PROCESSING_QUEUE, okEnv.WorkflowRunQueuedToTask run))) :=
  processEvent_fan_out_success okEnv [1, 0, 1] [] sampleEvent [{ ID := "A" }, { ID := "B" }]
    rfl (by decide)

/-- Claim C3: when `ListWorkflowsForEvent` returns `W` workflows and at least one call of
the fan-out fails (option derivation, run creation or enqueue), `processEvent` returns
an error, and it is the error returned by one of the failing goroutines; all the same
options were derived once for each of the `W` workflows, a run creation was attempted for
every set of options derived and an enqueue for every run created, so the other
goroutines ran on; and the fan-out makes no call other than these three, so every run
created and every task enqueued stays where it is: the runs and tasks after the call are
those before it and those of the fan-out. -/
theorem processEvent_fan_out_failure (env : Env) (sched : List Nat) (h : History)
    (event : EventModel) (workflows : List WorkflowModel)
    (hlist : env.ListWorkflowsForEvent h event.TenantID event.Key = .ok workflows)
    (hfail : ∃ c ∈ (fanOut env event workflows sched
      (h ++ [Call.ListWorkflowsForEvent event.TenantID event.Key workflows none])).2,
      c.err ≠ none) :
    ∃ (new : List Call) (e : GoError),
      processEvent env sched h event =
        (some e, h ++ [Call.ListWorkflowsForEvent event.TenantID event.Key workflows none] ++ new) ∧
      e ∈ branchErrors new ∧
      (derivedFor new).Perm (workflows.map (Prod.mk event)) ∧
      (createCalls new).Perm ((derivedOpts new).map (Prod.mk event.TenantID)) ∧
      (addTaskCalls new).Perm
        ((createdRuns new).map
          (fun run => (QueueType.WORKFLOW_PROCESSING_QUEUE, env.WorkflowRunQueuedToTask run))) ∧
      (∀ c ∈ new, c.isFanOut = true) ∧
      createdRuns (processEvent env sched h event).2 = createdRuns h ++ createdRuns new ∧
      enqueued (processEvent env sched h event).2 = enqueued h ++ enqueued new := by
  obtain ⟨hA, hB, hC, hD, hE, hF⟩ := fanOut_spec env event workflows sched
    (h ++ [Call.ListWorkflowsForEvent event.TenantID event.Key workflows none])
  obtain ⟨c, hc, hcerr⟩ := hfail
  obtain ⟨e0, he0⟩ := Option.ne_none_iff_exists'.1 hcerr
  obtain ⟨e1, he1⟩ := branchError_of_failure c (hF c hc) e0 he0
  have hmem : e1 ∈ branchErrors (fanOut env event workflows sched
      (h ++ [Call.ListWorkflowsForEvent event.TenantID event.Key workflows none])).2 := by
    simp only [branchErrors, List.mem_filterMap]
    exact ⟨c, hc, he1⟩
  cases hr : (fanOut env event workflows sched
      (h ++ [Call.ListWorkflowsForEvent event.TenantID event.Key workflows none])).1 with
  | none =>
    rw [hD hr] at hmem
    simp at hmem
  | some e =>
    have hrun : processEvent env sched h event =
        (some e, h ++ [Call.ListWorkflowsForEvent event.TenantID event.Key workflows none] ++
          (fanOut env event workflows sched
            (h ++ [Call.ListWorkflowsForEvent event.TenantID event.Key workflows none])).2) := by
      simp only [processEvent, hlist, hr]
    refine ⟨_, e, hrun, hE e hr, hA, hB, hC, hF, ?_, ?_⟩
    · rw [hrun]
      simp [createdRuns, List.filterMap_append]
    · rw [hrun]
      simp [enqueued, List.filterMap_append]

theorem processEvent_fan_out_failure_witness :
    ∃ (new : List Call) (e : GoError),
      processEvent createFailsEnv [0, 1, 1] [] sampleEvent =
        (some e, [] ++ [Call.ListWorkflowsForEvent sampleEvent.TenantID sampleEvent.Key
          [{ ID := "A" }, { ID := "B" }] none] ++ new) ∧
      e ∈ branchErrors new ∧
      (derivedFor new).Perm ([({ ID := "A" } : WorkflowModel), { ID := "B" }].map
        (Prod.mk sampleEvent)) ∧
      (createCalls new).Perm ((derivedOpts new).map (Prod.mk sampleEvent.TenantID)) ∧
      (addTaskCalls new).Perm
        ((createdRuns new).map
          (fun run =>
            (QueueType.WORKFLOW_PROCESSING_QUEUE, createFailsEnv.WorkflowRunQueuedToTask run))) ∧
      (∀ c ∈ new, c.isFanOut = true) ∧
      createdRuns (processEvent createFailsEnv [0, 1, 1] [] sampleEvent).2 =
        createdRuns [] ++ createdRuns new ∧
      enqueued (processEvent createFailsEnv [0, 1, 1] [] sampleEvent).2 =
        enqueued [] ++ enqueued new :=
  processEvent_fan_out_failure createFailsEnv [0, 1, 1] [] sampleEvent
    [{ ID := "A" }, { ID := "B" }] rfl (by decide)

/-- Claim C4: when decoding the payload fails, or decoding the metadata fails, or both
decode and `GetEventById` for the decoded event id fails, `handleTask` of the events
controller returns an error that wraps the failure met first; the calls it has made are
the payload decode alone, or the two decodes, or the two decodes and the lookup: the
metadata is not decoded after a payload failure, the event is not looked up after
either decode failure, and in no case are workflows listed, a run created or a task
enqueued. -/
theorem handleTask_fails_before_side_effects (env : Env) (sched : List Nat) (h : History)
    (task : Task)
    (hfail : (∃ e, env.DecodeAndValidatePayload task.Payload = .error e) ∨
      (∃ e, env.DecodeAndValidateMetadata task.Metadata = .error e) ∨
      (∃ payload e, env.DecodeAndValidatePayload task.Payload = .ok payload ∧
        env.GetEventById (h ++ [Call.DecodeAndValidate .Payload task.Payload none] ++
          [Call.DecodeAndValidate .Metadata task.Metadata none]) payload.EventId = .error e)) :
    ∃ (text : String) (e : GoError) (new : List Call),
      handleTask env sched h task = (some (.wrap text e), h ++ new) ∧
      listWorkflowsCalls new = [] ∧ createCalls new = [] ∧ addTaskCalls new = [] ∧
      enqueued new = [] ∧ createdRuns new = [] ∧
      ((env.DecodeAndValidatePayload task.Payload = .error e ∧
          text = "could not decode task payload" ∧
          new = [Call.DecodeAndValidate .Payload task.Payload (some e)]) ∨
       ((∃ payload, env.DecodeAndValidatePayload task.Payload = .ok payload) ∧
          env.DecodeAndValidateMetadata task.Metadata = .error e ∧
          text = "could not decode task metadata" ∧
          new = [Call.DecodeAndValidate .Payload task.Payload none,
            Call.DecodeAndValidate .Metadata task.Metadata (some e)]) ∨
       (∃ payload, env.DecodeAndValidatePayload task.Payload = .ok payload ∧
          (∃ metadata, env.DecodeAndValidateMetadata task.Metadata = .ok metadata) ∧
          env.GetEventById (h ++ [Call.DecodeAndValidate .Payload task.Payload none] ++
            [Call.DecodeAndValidate .Metadata task.Metadata none]) payload.EventId = .error e ∧
          text = "could not lookup event" ∧
          new = [Call.DecodeAndValidate .Payload task.Payload none,
            Call.DecodeAndValidate .Metadata task.Metadata none,
            Call.GetEventById payload.EventId none (some e)])) := by
  cases hp : env.DecodeAndValidatePayload task.Payload with
  | error e =>
    refine ⟨"could not decode task payload", e,
      [Call.DecodeAndValidate .Payload task.Payload (some e)], ?_, rfl, rfl, rfl, rfl, rfl,
      Or.inl ⟨rfl, rfl, rfl⟩⟩
    simp only [handleTask, hp]
  | ok payload =>
    cases hm : env.DecodeAndValidateMetadata task.Metadata with
    | error e =>
      refine ⟨"could not decode task metadata", e,
        [Call.DecodeAndValidate .Payload task.Payload none,
          Call.DecodeAndValidate .Metadata task.Metadata (some e)], ?_, rfl, rfl, rfl, rfl, rfl,
        Or.inr (Or.inl ⟨⟨payload, rfl⟩, rfl, rfl, rfl⟩)⟩
      simp only [handleTask, hp, hm]
      simp
    | ok metadata =>
      rcases hfail with ⟨e, he⟩ | ⟨e, he⟩ | ⟨payload2, e, hp2, he⟩
      · rw [hp] at he; cases he
      · rw [hm] at he; cases he
      · rw [hp] at hp2
        cases hp2
        refine ⟨"could not lookup event", e,
          [Call.DecodeAndValidate .Payload task.Payload none,
            Call.DecodeAndValidate .Metadata task.Metadata none,
            Call.GetEventById payload.EventId none (some e)], ?_, rfl, rfl, rfl, rfl, rfl,
          Or.inr (Or.inr ⟨payload, rfl, ⟨metadata, rfl⟩, he, rfl, rfl⟩)⟩
        simp only [handleTask, hp, hm, he]
        simp

theorem handleTask_fails_before_side_effects_witness :
    ∃ (text : String) (e : GoError) (new : List Call),
      handleTask lookupFailsEnv [] [] sampleEventTask = (some (.wrap text e), [] ++ new) ∧
      listWorkflowsCalls new = [] ∧ createCalls new = [] ∧ addTaskCalls new = [] ∧
      enqueued new = [] ∧ createdRuns new = [] ∧
      ((lookupFailsEnv.DecodeAndValidatePayload sampleEventTask.Payload = .error e ∧
          text = "could not decode task payload" ∧
          new = [Call.DecodeAndValidate .Payload sampleEventTask.Payload (some e)]) ∨
       ((∃ payload, lookupFailsEnv.DecodeAndValidatePayload sampleEventTask.Payload =
            .ok payload) ∧
          lookupFailsEnv.DecodeAndValidateMetadata sampleEventTask.Metadata = .error e ∧
          text = "could not decode task metadata" ∧
          new = [Call.DecodeAndValidate .Payload sampleEventTask.Payload none,
            Call.DecodeAndValidate .Metadata sampleEventTask.Metadata (some e)]) ∨
       (∃ payload, lookupFailsEnv.DecodeAndValidatePayload sampleEventTask.Payload =
            .ok payload ∧
          (∃ metadata, lookupFailsEnv.DecodeAndValidateMetadata sampleEventTask.Metadata =
            .ok metadata) ∧
          lookupFailsEnv.GetEventById
            ([] ++ [Call.DecodeAndValidate .Payload sampleEventTask.Payload none] ++
            [Call.DecodeAndValidate .Metadata sampleEventTask.Metadata none])
            payload.EventId = .error e ∧
          text = "could not lookup event" ∧
          new = [Call.DecodeAndValidate .Payload sampleEventTask.Payload none,
            Call.DecodeAndValidate .Metadata sampleEventTask.Metadata none,
            Call.GetEventById payload.EventId none (some e)])) :=
  handleTask_fails_before_side_effects lookupFailsEnv [] [] sampleEventTask
    (Or.inr (Or.inr ⟨{ EventId := "E" }, .msg "event not found", rfl, rfl⟩))

end EventsControllerImpl

theorem handledTasks_fanOut (l : List Call) (hl : ∀ c ∈ l, c.isFanOut = true) :
    handledTasks l = [] := by
  induction l with
  | nil => rfl
  | cons c rest ih =>
    have hc := hl c (List.mem_cons_self c rest)
    have hrest := ih (fun d hd => hl d (List.mem_cons_of_mem c hd))
    clear hl ih
    cases c <;>
      first
      | (simp [Call.isFanOut] at hc; done)
      | (simpa [handledTasks, List.filterMap_cons] using hrest)

theorem EventsControllerImpl.processEvent_handled (env : Env) (sched : List Nat) (h : History)
    (event : EventModel) :
    handledTasks (EventsControllerImpl.processEvent env sched h event).2 = handledTasks h := by
  simp only [EventsControllerImpl.processEvent]
  cases hl : env.ListWorkflowsForEvent h event.TenantID event.Key with
  | error e => simp [handledTasks, List.filterMap_append]
  | ok workflows =>
    have hk := (EventsControllerImpl.fanOut_spec env event workflows sched
      (h ++ [Call.ListWorkflowsForEvent event.TenantID event.Key workflows none])).2.2.2.2.2
    have := handledTasks_fanOut _ hk
    simp only [handledTasks_append, this]
    simp [handledTasks]

theorem EventsControllerImpl.handleTask_handled (env : Env) (sched : List Nat) (h : History)
    (task : Task) :
    handledTasks (EventsControllerImpl.handleTask env sched h task).2 = handledTasks h := by
  cases hp : env.DecodeAndValidatePayload task.Payload with
  | error e =>
    simp only [EventsControllerImpl.handleTask, hp]
    simp [handledTasks, List.filterMap_append]
  | ok payload =>
    cases hm : env.DecodeAndValidateMetadata task.Metadata with
    | error e =>
      simp only [EventsControllerImpl.handleTask, hp, hm]
      simp [handledTasks, List.filterMap_append]
    | ok metadata =>
      cases he : env.GetEventById (h ++ [Call.DecodeAndValidate .Payload task.Payload none] ++
          [Call.DecodeAndValidate .Metadata task.Metadata none]) payload.EventId with
      | error e =>
        simp only [EventsControllerImpl.handleTask, hp, hm, he]
        simp [handledTasks, List.filterMap_append]
      | ok event =>
        simp only [EventsControllerImpl.handleTask, hp, hm, he,
          EventsControllerImpl.processEvent_handled, handledTasks_append]
        simp [handledTasks]

theorem EventsControllerImpl.eventUnit_handled (env : Env)
    (scheds : History → Task → List Nat) (h : History) (task : Task) :
    handledTasks (EventsControllerImpl.taskUnit env scheds h task) = handledTasks h ++ [task] := by
  simp only [EventsControllerImpl.taskUnit]
  cases hr : (EventsControllerImpl.handleTask env (scheds h task) h task).1 with
  | none =>
    simp only [handledTasks_append, EventsControllerImpl.handleTask_handled]
    simp [handledTasks]
  | some e =>
    simp only [handledTasks_append, EventsControllerImpl.handleTask_handled]
    simp [handledTasks]

theorem Consumer.drain_run_order (unit : History → Task → History) (sched : List Tick) :
    ∀ s : Consumer, ∃ order : List Task, order.Perm (s.inflight ++ s.taskChan) ∧
      Consumer.drain unit (Consumer.run unit sched s) = order.foldl unit s.trace := by
  induction sched with
  | nil => intro s; exact ⟨s.inflight ++ s.taskChan, List.Perm.refl _, rfl⟩
  | cons tick rest ih =>
    intro s
    obtain ⟨order, hperm, hrun⟩ := ih (Consumer.step unit s tick)
    simp only [Consumer.run, List.foldl_cons] at hrun ⊢
    cases tick with
    | recv =>
      cases hc : s.taskChan with
      | nil =>
        simp only [Consumer.step, hc] at hperm hrun
        exact ⟨order, by simpa [hc] using hperm, by simpa [Consumer.step, hc] using hrun⟩
      | cons task more =>
        simp only [Consumer.step, hc] at hperm hrun
        exact ⟨order, by simpa using hperm, by simpa [Consumer.step, hc] using hrun⟩
    | finish k =>
      cases hk : s.inflight[k]? with
      | none =>
        simp only [Consumer.step, hk] at hperm hrun
        exact ⟨order, hperm, by simpa [Consumer.step, hk] using hrun⟩
      | some task =>
        simp only [Consumer.step, hk] at hperm hrun
        refine ⟨task :: order, ?_, by simpa [Consumer.step, hk] using hrun⟩
        have hp := perm_cons_eraseIdx s.inflight k task hk
        exact (List.Perm.cons task hperm).trans
          (List.Perm.append_right s.taskChan hp.symm)

theorem handlerCalls_append (a b : List Call) :
    handlerCalls (a ++ b) = handlerCalls a ++ handlerCalls b := by
  simp [handlerCalls, List.filterMap_append]

theorem TickerImpl.taskUnit_handlerCalls (env : Env) (h : History) (task : Task) :
    handlerCalls (TickerImpl.taskUnit env h task) =
      handlerCalls h ++
        ((specTaskKinds.lookup task.ID).map (fun which => (which, task))).toList := by
  cases hlook : specTaskKinds.lookup task.ID with
  | none =>
    have h1 := TickerImpl.handleTask_unknown env h task hlook
    simp [TickerImpl.taskUnit, h1, handlerCalls, List.filterMap_append]
  | some which =>
    have h1 := TickerImpl.handleTask_recognised env h task which hlook
    rw [TickerImpl.invoke_eq] at h1
    cases herr : env.runHandler which h task <;>
      simp [TickerImpl.taskUnit, h1, herr, handlerCalls, List.filterMap_append]

theorem TickerImpl.units_handlerCalls (env : Env) (order : List Task) :
    ∀ h : History, handlerCalls (order.foldl (TickerImpl.taskUnit env) h) =
      handlerCalls h ++
        order.filterMap (fun task =>
          (specTaskKinds.lookup task.ID).map (fun which => (which, task))) := by
  induction order with
  | nil => intro h; simp
  | cons task rest ih =>
    intro h
    simp only [List.foldl_cons]
    rw [ih, TickerImpl.taskUnit_handlerCalls, EventsControllerImpl.filterMap_cons_toList]
    simp

/-- Claim C5: for every finite sequence of tasks delivered on the subscribed channel,
under every schedule of the goroutines and whatever the calls return, the history the
consumption loop of the ticker leaves, and likewise that of the events controller, is
the one obtained by invoking `handleTask` exactly once for each delivered task, in some
order of the delivered tasks, each invocation on the history left by the ones before it
and followed by one error log line naming the task id exactly when it returned an
error; the error goes nowhere else, and the remaining tasks are handled all the same.
So the tasks handled are a permutation of the delivered ones, and in the ticker the
handler of every delivered task of a recognised kind is called exactly once. -/
theorem consumption_loop_handles_every_task (env : Env) (scheds : History → Task → List Nat)
    (sched : List Tick) (tasks : List Task) (h : History) :
    (∃ order : List Task, order.Perm tasks ∧
      TickerImpl.consume env sched tasks h =
        order.foldl
          (fun h1 task =>
            (TickerImpl.handleTask env h1 task).2 ++
              Call.handleTask task (TickerImpl.handleTask env h1 task).1 ::
                (match (TickerImpl.handleTask env h1 task).1 with
                  | some e => [Call.logError ("could not handle ticker task " ++ task.ID) e]
                  | none => []))
          h) ∧
    (∃ order : List Task, order.Perm tasks ∧
      EventsControllerImpl.consume env scheds sched tasks h =
        order.foldl
          (fun h1 task =>
            (EventsControllerImpl.handleTask env (scheds h1 task) h1 task).2 ++
              Call.handleTask task
                  (EventsControllerImpl.handleTask env (scheds h1 task) h1 task).1 ::
                (match (EventsControllerImpl.handleTask env (scheds h1 task) h1 task).1 with
                  | some e => [Call.logError ("could not handle event task " ++ task.ID) e]
                  | none => []))
          h) ∧
    (handledTasks (TickerImpl.consume env sched tasks h)).Perm (handledTasks h ++ tasks) ∧
    (handledTasks (EventsControllerImpl.consume env scheds sched tasks h)).Perm
      (handledTasks h ++ tasks) ∧
    (handlerCalls (TickerImpl.consume env sched tasks h)).Perm
      (handlerCalls h ++
        tasks.filterMap (fun task =>
          (specTaskKinds.lookup task.ID).map (fun which => (which, task)))) ∧
    (∀ (h1 : History) (task : Task),
      TickerImpl.taskUnit env h1 task =
        (TickerImpl.handleTask env h1 task).2 ++
          Call.handleTask task (TickerImpl.handleTask env h1 task).1 ::
            (match (TickerImpl.handleTask env h1 task).1 with
              | some e => [Call.logError ("could not handle ticker task " ++ task.ID) e]
              | none => [])) ∧
    (∀ (h1 : History) (task : Task),
      EventsControllerImpl.taskUnit env scheds h1 task =
        (EventsControllerImpl.handleTask env (scheds h1 task) h1 task).2 ++
          Call.handleTask task (EventsControllerImpl.handleTask env (scheds h1 task) h1 task).1 ::
            (match (EventsControllerImpl.handleTask env (scheds h1 task) h1 task).1 with
              | some e => [Call.logError ("could not handle event task " ++ task.ID) e]
              | none => [])) := by
  have hticker : ∀ (h1 : History) (task : Task),
      TickerImpl.taskUnit env h1 task =
        (TickerImpl.handleTask env h1 task).2 ++
          Call.handleTask task (TickerImpl.handleTask env h1 task).1 ::
            (match (TickerImpl.handleTask env h1 task).1 with
              | some e => [Call.logError ("could not handle ticker task " ++ task.ID) e]
              | none => []) := by
    intro h1 task
    simp only [TickerImpl.taskUnit]
    cases (TickerImpl.handleTask env h1 task).1 <;> simp
  have hevents : ∀ (h1 : History) (task : Task),
      EventsControllerImpl.taskUnit env scheds h1 task =
        (EventsControllerImpl.handleTask env (scheds h1 task) h1 task).2 ++
          Call.handleTask task (EventsControllerImpl.handleTask env (scheds h1 task) h1 task).1 ::
            (match (EventsControllerImpl.handleTask env (scheds h1 task) h1 task).1 with
              | some e => [Call.logError ("could not handle event task " ++ task.ID) e]
              | none => []) := by
    intro h1 task
    simp only [EventsControllerImpl.taskUnit]
    cases (EventsControllerImpl.handleTask env (scheds h1 task) h1 task).1 <;> simp
  obtain ⟨o1, hp1, hr1⟩ := Consumer.drain_run_order (TickerImpl.taskUnit env) sched
    { taskChan := tasks, inflight := [], trace := h }
  obtain ⟨o2, hp2, hr2⟩ := Consumer.drain_run_order (EventsControllerImpl.taskUnit env scheds)
    sched { taskChan := tasks, inflight := [], trace := h }
  simp only [List.nil_append] at hp1 hp2
  refine ⟨⟨o1, hp1, ?_⟩, ⟨o2, hp2, ?_⟩, ?_, ?_, ?_, hticker, hevents⟩
  · have hfun : (fun h1 task =>
        (TickerImpl.handleTask env h1 task).2 ++
          Call.handleTask task (TickerImpl.handleTask env h1 task).1 ::
            (match (TickerImpl.handleTask env h1 task).1 with
              | some e => [Call.logError ("could not handle ticker task " ++ task.ID) e]
              | none => [])) = TickerImpl.taskUnit env := by
      funext h1 task
      exact (hticker h1 task).symm
    rw [hfun]
    exact hr1
  · have hfun : (fun h1 task =>
        (EventsControllerImpl.handleTask env (scheds h1 task) h1 task).2 ++
          Call.handleTask task
              (EventsControllerImpl.handleTask env (scheds h1 task) h1 task).1 ::
            (match (EventsControllerImpl.handleTask env (scheds h1 task) h1 task).1 with
              | some e => [Call.logError ("could not handle event task " ++ task.ID) e]
              | none => [])) = EventsControllerImpl.taskUnit env scheds := by
      funext h1 task
      exact (hevents h1 task).symm
    rw [hfun]
    exact hr2
  · have := Consumer.handled_perm (TickerImpl.taskUnit env) (TickerImpl.tickerUnit_handled env)
      sched { taskChan := tasks, inflight := [], trace := h }
    simpa [TickerImpl.consume] using this
  · have := Consumer.handled_perm (EventsControllerImpl.taskUnit env scheds)
      (EventsControllerImpl.eventUnit_handled env scheds)
      sched { taskChan := tasks, inflight := [], trace := h }
    simpa [EventsControllerImpl.consume] using this
  · have hc : TickerImpl.consume env sched tasks h = o1.foldl (TickerImpl.taskUnit env) h := hr1
    rw [hc, TickerImpl.units_handlerCalls]
    exact List.Perm.append_left _ (hp1.filterMap _)

/-- A run of the consumption loop of the ticker: two tasks are received, the goroutine of
the second finishes first; the handler of the recognised task is called, the unknown
task is answered with an error that is logged, and both are handled. -/
theorem ticker_consume_two_tasks :
    TickerImpl.consume okEnv [.recv, .recv, .finish 1]
        [{ ID := "schedule-cron", Payload := [], Metadata := [] },
          { ID := "schedule-step-requeue", Payload := [], Metadata := [] }] [] =
      [Call.handleTask { ID := "schedule-step-requeue", Payload := [], Metadata := [] }
          (some (.msg "unknown task: schedule-step-requeue")),
        Call.logError "could not handle ticker task schedule-step-requeue"
          (.msg "unknown task: schedule-step-requeue"),
        Call.handler .handleScheduleCron { ID := "schedule-cron", Payload := [], Metadata := [] }
          none,
        Call.handleTask { ID := "schedule-cron", Payload := [], Metadata := [] } none] := by
  decide

/-! ## Step-run repository: conditional queueing -/

theorem QueueStepRun.calls_not_pending (opts : List UpdateStepRunOpts) :
    ∀ run : StepRun, run.status ≠ .PENDING →
      (QueueStepRun.calls run opts).1 = opts.map (fun _ => .error ErrStepRunIsNotPending) ∧
      (QueueStepRun.calls run opts).2 = run := by
  induction opts with
  | nil => intro run _; exact ⟨rfl, rfl⟩
  | cons o rest ih =>
    intro run hrun
    have hq : QueueStepRun run o = (.error ErrStepRunIsNotPending, run) := by
      simp [QueueStepRun, hrun]
    obtain ⟨h1, h2⟩ := ih run hrun
    simp only [QueueStepRun.calls, hq, h1, h2]
    simp

/-- Claim C10: `QueueStepRun` applies the updates and returns the updated record exactly
when the status of the run is `PENDING` just before the call; otherwise it leaves the
record as it is and returns `ErrStepRunIsNotPending`.  So of `N` calls on the same
`PENDING` run, each of which sets a status other than `PENDING`, in whatever order the
store takes them, exactly one succeeds (the first) and the other `N - 1` return
`ErrStepRunIsNotPending`; the stored status is the one set by the first. -/
theorem QueueStepRun_only_if_pending (run : StepRun) (first : UpdateStepRunOpts)
    (others : List UpdateStepRunOpts)
    (hpending : run.status = .PENDING)
    (hout : ∀ o ∈ first :: others, ∃ st, o.Status = some st ∧ st ≠ StepRunStatus.PENDING) :
    (∀ (r : StepRun) (o : UpdateStepRunOpts),
      (succeeded (QueueStepRun r o).1 = true ↔ r.status = .PENDING) ∧
      (r.status = .PENDING →
        QueueStepRun r o = (.ok (r.applyUpdates o), r.applyUpdates o)) ∧
      (r.status ≠ .PENDING → QueueStepRun r o = (.error ErrStepRunIsNotPending, r))) ∧
    (QueueStepRun.calls run (first :: others)).1 =
      .ok (run.applyUpdates first) :: others.map (fun _ => .error ErrStepRunIsNotPending) ∧
    ((QueueStepRun.calls run (first :: others)).1.filter succeeded).length = 1 ∧
    ((QueueStepRun.calls run (first :: others)).1.filter notPending).length =
      (first :: others).length - 1 ∧
    (QueueStepRun.calls run (first :: others)).2 = run.applyUpdates first ∧
    some (QueueStepRun.calls run (first :: others)).2.status = first.Status := by
  obtain ⟨st, hst, hne⟩ := hout first (List.mem_cons_self _ _)
  have hq : QueueStepRun run first = (.ok (run.applyUpdates first), run.applyUpdates first) := by
    simp [QueueStepRun, hpending]
  have hstatus : (run.applyUpdates first).status = st := by
    simp [StepRun.applyUpdates, hst]
  have hnp : (run.applyUpdates first).status ≠ .PENDING := by rw [hstatus]; exact hne
  obtain ⟨h1, h2⟩ := QueueStepRun.calls_not_pending others (run.applyUpdates first) hnp
  have hcalls : (QueueStepRun.calls run (first :: others)).1 =
      .ok (run.applyUpdates first) ::
        others.map (fun _ => .error ErrStepRunIsNotPending) := by
    simp only [QueueStepRun.calls, hq, h1]
  have hrec : (QueueStepRun.calls run (first :: others)).2 = run.applyUpdates first := by
    simp only [QueueStepRun.calls, hq, h2]
  refine ⟨?_, hcalls, ?_, ?_, hrec, ?_⟩
  · intro r o
    by_cases hr : r.status = .PENDING
    · simp [QueueStepRun, hr, succeeded]
    · simp [QueueStepRun, hr, succeeded]
  · rw [hcalls]
    simp [List.filter_cons, succeeded, List.filter_map, Function.comp_def]
  · rw [hcalls]
    simp [List.filter_cons, notPending, List.filter_map, Function.comp_def]
  · rw [hrec, hstatus, hst]

theorem QueueStepRun_only_if_pending_witness :
    (∀ (r : StepRun) (o : UpdateStepRunOpts),
      (succeeded (QueueStepRun r o).1 = true ↔ r.status = .PENDING) ∧
      (r.status = .PENDING →
        QueueStepRun r o = (.ok (r.applyUpdates o), r.applyUpdates o)) ∧
      (r.status ≠ .PENDING → QueueStepRun r o = (.error ErrStepRunIsNotPending, r))) ∧
    (QueueStepRun.calls sampleStepRun (toAssigned :: [toAssigned])).1 =
      .ok (sampleStepRun.applyUpdates toAssigned) ::
        [toAssigned].map (fun _ => .error ErrStepRunIsNotPending) ∧
    ((QueueStepRun.calls sampleStepRun (toAssigned :: [toAssigned])).1.filter succeeded).length
      = 1 ∧
    ((QueueStepRun.calls sampleStepRun (toAssigned :: [toAssigned])).1.filter notPending).length
      = (toAssigned :: [toAssigned]).length - 1 ∧
    (QueueStepRun.calls sampleStepRun (toAssigned :: [toAssigned])).2 =
      sampleStepRun.applyUpdates toAssigned ∧
    some (QueueStepRun.calls sampleStepRun (toAssigned :: [toAssigned])).2.status =
      toAssigned.Status :=
  QueueStepRun_only_if_pending sampleStepRun toAssigned [toAssigned] rfl (by decide)

end Hatchet
